import Mathlib

/-!
Verification development for the axmol 3D bundle deserializer
(`core/3d/Bundle3D.cpp`).  The file embeds, as executable Lean functions, the
parts of the loader that the stated properties concern: the primitive binary
reader, the reference table, the version-keyed mesh/material/skin/node/animation
section loaders, and the top-level `load` dispatch.  Byte streams are lists of
naturals below 256; multi-byte integers are little-endian; IEEE-754 payloads are
kept as their raw 32-bit words (cast into `Rat`) — no floating-point arithmetic
is ever performed on them, and the axis-aligned-bounding-box computation is kept
symbolic (its numeric result is inspected by no property).
-/

set_option maxRecDepth 100000
set_option maxHeartbeats 1000000

/-- Modelled from the spec: the Primitive Reader (§4.1) — a sequential cursor
over a byte buffer.  `BundleReader` in the repository is outside the sources
under verification, so it is reconstructed from the spec's contract. -/
structure BundleReader where
  buffer : List Nat
  pos : Nat
deriving DecidableEq

/-- Modelled from the spec: `read(dst, elemSize, count)` conveys a short read
by a count mismatch, never by an exception.  A short read is modelled as
`none` with the cursor unmoved. -/
def readBytes (r : BundleReader) (n : Nat) : Option (List Nat × BundleReader) :=
  if r.pos + n ≤ r.buffer.length then
    some ((r.buffer.drop r.pos).take n, { r with pos := r.pos + n })
  else
    none

/-- Little-endian decoding of a byte list into one natural number. -/
def leWord : List Nat → Nat
  | [] => 0
  | b :: rest => b % 256 + 256 * leWord rest

/-- Read one 4-byte unsigned integer. -/
def read4 (r : BundleReader) : Option (Nat × BundleReader) :=
  (readBytes r 4).map (fun p => (leWord p.1, p.2))

/-- Read one byte. -/
def read1 (r : BundleReader) : Option (Nat × BundleReader) :=
  (readBytes r 1).map (fun p => (leWord p.1, p.2))

/-- Group a byte list into 4-byte little-endian words. -/
def groupWords : List Nat → List Nat
  | b0 :: b1 :: b2 :: b3 :: rest => leWord [b0, b1, b2, b3] :: groupWords rest
  | _ => []

/-- Group a byte list into 2-byte little-endian values. -/
def groupPairs : List Nat → List Nat
  | b0 :: b1 :: rest => leWord [b0, b1] :: groupPairs rest
  | _ => []

/-- Read `count` 4-byte elements (32-bit integers or raw float words). -/
def read4n (r : BundleReader) (count : Nat) : Option (List Nat × BundleReader) :=
  (readBytes r (4 * count)).map (fun p => (groupWords p.1, p.2))

/-- Read `count` 2-byte elements (16-bit indices). -/
def read2n (r : BundleReader) (count : Nat) : Option (List Nat × BundleReader) :=
  (readBytes r (2 * count)).map (fun p => (groupPairs p.1, p.2))

/-- Bytes to a Lean string, one character per byte. -/
def bytesToString (bs : List Nat) : String :=
  String.mk (bs.map (fun b => Char.ofNat (b % 256)))

/-- Modelled from the spec: `readString` reads a 4-byte length prefix then that
many bytes; it fails gracefully, returning the empty string on truncation. -/
def readString (r : BundleReader) : String × BundleReader :=
  match read4 r with
  | none => ("", r)
  | some (len, r1) =>
    match readBytes r1 len with
    | none => ("", r1)
    | some (bs, r2) => (bytesToString bs, r2)

/-- Modelled from the spec: `readMatrix` reads 16 4-byte floats, success flag. -/
def readMatrix (r : BundleReader) : Option (List Nat × BundleReader) :=
  read4n r 16

/-- Modelled from the spec: `seek(offset, SEEK_SET)` with a success flag. -/
def seek (r : BundleReader) (offset : Nat) : Option BundleReader :=
  if offset ≤ r.buffer.length then some { r with pos := offset } else none

/-- An unchecked read that discards the data: the cursor advances when the
bytes are available and stays put on a short read (the source ignores the
returned count). -/
def skipBytes (r : BundleReader) (n : Nat) : BundleReader :=
  match readBytes r n with
  | some p => p.2
  | none => r

/-- An unchecked 4-byte integer read into an initialised variable: the
variable keeps its previous value on a short read. -/
def readOr (r : BundleReader) (dflt : Nat) : Nat × BundleReader :=
  match read4 r with
  | some p => p
  | none => (dflt, r)

/-- JSON document values as produced by the external JSON reader (rapidjson is
a collaborator library; only the value shape matters here).  Numbers are kept
as rationals; no claim performs arithmetic on them. -/
inductive JVal where
  | jstr (s : String)
  | jnum (q : Rat)
  | jbool (b : Bool)
  | jnull
  | jarr (elems : List JVal)
  | jobj (fields : List (String × JVal))

/-- First binding of a key in a JSON object's field list (rapidjson
`FindMember` returns the first match). -/
def lookupField : List (String × JVal) → String → Option JVal
  | [], _ => none
  | (k, v) :: rest, key => if k = key then some v else lookupField rest key

/-- `value[key]` on a JSON object. -/
def jMember : JVal → String → Option JVal
  | .jobj fields, key => lookupField fields key
  | _, _ => none

/-- `value.HasMember(key)`. -/
def jHas (v : JVal) (key : String) : Bool :=
  (jMember v key).isSome

/-- `GetString` — `none` when absent or not a string (an assertion failure in
the reference implementation; modelled as parse failure). -/
def jGetStr : Option JVal → Option String
  | some (.jstr s) => some s
  | _ => none

/-- `GetFloat` — `none` when absent or not a number. -/
def jGetFloat : Option JVal → Option Rat
  | some (.jnum q) => some q
  | _ => none

/-- `GetBool` — `none` when absent or not a boolean. -/
def jGetBool : Option JVal → Option Bool
  | some (.jbool b) => some b
  | _ => none

/-- Array payload of a JSON value, `none` when it is not an array. -/
def jArr : Option JVal → Option (List JVal)
  | some (.jarr xs) => some xs
  | _ => none

mutual

/-- A computable structural weight of a JSON value, used as recursion fuel for
the document walks (each child of a value has strictly smaller weight). -/
def jWeight : JVal → Nat
  | .jstr _ => 1
  | .jnum _ => 1
  | .jbool _ => 1
  | .jnull => 1
  | .jarr xs => 1 + jWeightList xs
  | .jobj fs => 1 + jWeightFields fs

/-- Total weight of a list of JSON values. -/
def jWeightList : List JVal → Nat
  | [] => 0
  | v :: rest => 1 + jWeight v + jWeightList rest

/-- Total weight of a JSON object's field list. -/
def jWeightFields : List (String × JVal) → Nat
  | [] => 0
  | (_, v) :: rest => 1 + jWeight v + jWeightFields rest

end

/-- Vertex component layout codes (`backend::VertexFormat`). -/
inductive VertexFormat where
  | INT | INT2 | INT3 | INT4
  | FLOAT | FLOAT2 | FLOAT3 | FLOAT4
  | USHORT2 | USHORT4 | UBYTE4
deriving DecidableEq

/-- Vertex semantic codes (`shaderinfos::VertexKey`). -/
inductive VertexKey where
  | POSITION | COLOR | TEX_COORD | TEX_COORD1 | TEX_COORD2 | TEX_COORD3
  | NORMAL | BLEND_WEIGHT | BLEND_INDEX | TANGENT | BINORMAL | ERROR
deriving DecidableEq

/-- Texture usage roles (`NTextureData::Usage`). -/
inductive TexUsage where
  | Unknown | NONE | Diffuse | Emissive | Ambient | Specular
  | Shininess | Normal | Bump | Transparency | Reflection
deriving DecidableEq

/-- Texture wrap modes (`backend::SamplerAddressMode`), the two values the
translator produces. -/
inductive SamplerAddressMode where
  | REPEAT | CLAMP_TO_EDGE
deriving DecidableEq

/-- `Bundle3D::parseGLDataType`: text type code and component count to a vertex
format.  Unrecognized input reaches a release-mode no-op assertion and falls
through to the initialised default `INT`. -/
def parseGLDataType (s : String) (size : Nat) : VertexFormat :=
  if s = "GL_BYTE" then
    (if size = 4 then .UBYTE4 else .INT)
  else if s = "GL_UNSIGNED_BYTE" then
    (if size = 4 then .UBYTE4 else .INT)
  else if s = "GL_SHORT" then
    (if size = 2 then .USHORT2 else if size = 4 then .USHORT4 else .INT)
  else if s = "GL_UNSIGNED_SHORT" then
    (if size = 2 then .USHORT2 else if size = 4 then .USHORT4 else .INT)
  else if s = "GL_INT" then
    (if size = 1 then .INT else if size = 2 then .INT2
     else if size = 3 then .INT3 else if size = 4 then .INT4 else .INT)
  else if s = "GL_UNSIGNED_INT" then
    (if size = 1 then .INT else if size = 2 then .INT2
     else if size = 3 then .INT3 else if size = 4 then .INT4 else .INT)
  else if s = "GL_FLOAT" then
    (if size = 1 then .FLOAT else if size = 2 then .FLOAT2
     else if size = 3 then .FLOAT3 else if size = 4 then .FLOAT4 else .INT)
  else .INT

/-- `Bundle3D::parseGLProgramAttribute`: textual semantic to vertex key;
unrecognized input yields `VERTEX_ATTRIB_ERROR`. -/
def parseGLProgramAttribute (s : String) : VertexKey :=
  if s = "VERTEX_ATTRIB_POSITION" then .POSITION
  else if s = "VERTEX_ATTRIB_COLOR" then .COLOR
  else if s = "VERTEX_ATTRIB_TEX_COORD" then .TEX_COORD
  else if s = "VERTEX_ATTRIB_TEX_COORD1" then .TEX_COORD1
  else if s = "VERTEX_ATTRIB_TEX_COORD2" then .TEX_COORD2
  else if s = "VERTEX_ATTRIB_TEX_COORD3" then .TEX_COORD3
  else if s = "VERTEX_ATTRIB_NORMAL" then .NORMAL
  else if s = "VERTEX_ATTRIB_BLEND_WEIGHT" then .BLEND_WEIGHT
  else if s = "VERTEX_ATTRIB_BLEND_INDEX" then .BLEND_INDEX
  else if s = "VERTEX_ATTRIB_TANGENT" then .TANGENT
  else if s = "VERTEX_ATTRIB_BINORMAL" then .BINORMAL
  else .ERROR

/-- `Bundle3D::parseGLTextureType`: textual texture role to usage enum;
unrecognized input yields `Unknown`. -/
def parseGLTextureType (s : String) : TexUsage :=
  if s = "AMBIENT" then .Ambient
  else if s = "BUMP" then .Bump
  else if s = "DIFFUSE" then .Diffuse
  else if s = "EMISSIVE" then .Emissive
  else if s = "NONE" then .NONE
  else if s = "NORMAL" then .Normal
  else if s = "REFLECTION" then .Reflection
  else if s = "SHININESS" then .Shininess
  else if s = "SPECULAR" then .Specular
  else if s = "TRANSPARENCY" then .Transparency
  else .Unknown

/-- `Bundle3D::parseSamplerAddressMode`: "REPEAT" and "CLAMP"; unrecognized
input reaches a release-mode assertion and returns `REPEAT`. -/
def parseSamplerAddressMode (s : String) : SamplerAddressMode :=
  if s = "REPEAT" then .REPEAT
  else if s = "CLAMP" then .CLAMP_TO_EDGE
  else .REPEAT

/-- Flat 16-entry matrix; binary matrices carry their raw float words cast to
`Rat`, JSON matrices carry the parsed numbers. -/
def wordsToMat (ws : List Nat) : List Rat :=
  ws.map (fun w => (w : Rat))

/-- Modelled from the spec: the external math library's `Mat4::IDENTITY`, also
the value produced by default construction of a local transform. -/
def mat4Identity : List Rat :=
  [1, 0, 0, 0, 0, 1, 0, 0, 0, 0, 1, 0, 0, 0, 0, 1]

/-- A sequence of JSON numbers; `none` if any entry is not a number. -/
def ratsOfJson : List JVal → Option (List Rat)
  | [] => some []
  | v :: rest =>
    match jGetFloat (some v), ratsOfJson rest with
    | some q, some qs => some (q :: qs)
    | _, _ => none

/-- Building a `Mat4` from a JSON array: a default (identity) matrix whose
first `Size()` entries are overwritten (`transform.m[j] = ...GetFloat()`).
More than 16 entries would write out of bounds in the reference
implementation; that undefined behaviour is modelled as parse failure. -/
def matFromJson (entries : List JVal) : Option (List Rat) :=
  match ratsOfJson entries with
  | some qs => if qs.length ≤ 16 then some (qs ++ mat4Identity.drop qs.length) else none
  | none => none

/-- Modelled from the spec: byte size of one vertex attribute — its
contribution to the per-vertex stride. -/
def vertexFormatBytes : VertexFormat → Nat
  | .FLOAT => 4 | .FLOAT2 => 8 | .FLOAT3 => 12 | .FLOAT4 => 16
  | .INT => 4 | .INT2 => 8 | .INT3 => 12 | .INT4 => 16
  | .USHORT2 => 4 | .USHORT4 => 8 | .UBYTE4 => 4

/-- One vertex attribute descriptor (`MeshVertexAttrib`). -/
structure MeshVertexAttrib where
  type : VertexFormat
  vertexAttrib : VertexKey
deriving DecidableEq

/-- Axis-aligned bounding boxes: either the six floats read from the file, or
the symbolic result of `calculateAABB` over a vertex stream and index subset
(the floating-point min/max fold itself is inspected by no property). -/
inductive AABBVal where
  | fromFile (vals : List Rat)
  | computed (vertex : List Rat) (stride : Nat) (indices : List Nat)
deriving DecidableEq

/-- `Bundle3D::calculateAABB` (kept symbolic, see `AABBVal`). -/
def calculateAABB (vertex : List Rat) (stride : Nat) (indices : List Nat) : AABBVal :=
  .computed vertex stride indices

/-- One mesh aggregate entry (`MeshData`). -/
structure MeshData where
  vertex : List Rat := []
  vertexSizeInFloat : Nat := 0
  subMeshIndices : List (List Nat) := []
  subMeshIds : List String := []
  subMeshAABB : List AABBVal := []
  numIndex : Nat := 0
  attribs : List MeshVertexAttrib := []
  attribCount : Nat := 0
deriving DecidableEq

/-- Modelled from the spec: `MeshData::getPerVertexSize` — the per-vertex
stride in bytes implied by the attribute list. -/
def getPerVertexSize (m : MeshData) : Nat :=
  (m.attribs.map (fun a => vertexFormatBytes a.type)).sum

/-- Number of vertices a mesh's flat float buffer holds (buffer bytes divided
by stride). -/
def meshVertexCount (m : MeshData) : Nat :=
  m.vertex.length * 4 / getPerVertexSize m

/-- The mesh-list aggregate (`MeshDatas`). -/
structure MeshDatas where
  meshDatas : List MeshData := []
deriving DecidableEq

/-- One texture binding (`NTextureData`).  The legacy loaders never write the
wrap modes; per the spec they default to clamp. -/
structure NTextureData where
  id : String := ""
  filename : String := ""
  type : TexUsage := .Unknown
  wrapS : SamplerAddressMode := .CLAMP_TO_EDGE
  wrapT : SamplerAddressMode := .CLAMP_TO_EDGE
deriving DecidableEq

/-- One material aggregate entry (`NMaterialData`). -/
structure NMaterialData where
  textures : List NTextureData := []
  id : String := ""
deriving DecidableEq

/-- The material-list aggregate (`MaterialDatas`). -/
structure MaterialDatas where
  materials : List NMaterialData := []
deriving DecidableEq

/-- Skin aggregate (`SkinData`): parallel skin-bone and node-bone arrays, the
parent-to-children adjacency over the combined index space, and the designated
root bone index (-1 until assigned). -/
structure SkinData where
  skinBoneNames : List String := []
  nodeBoneNames : List String := []
  inverseBindPoseMatrices : List (List Rat) := []
  skinBoneOriginMatrices : List (List Rat) := []
  nodeBoneOriginMatrices : List (List Rat) := []
  boneChild : List (Int × List Int) := []
  rootBoneIndex : Int := -1
deriving DecidableEq

/-- Position of a name in a name list, or -1 (the C++ find-index idiom). -/
def nameIndex : List String → String → Int
  | [], _ => -1
  | n :: rest, name =>
    if n = name then 0
    else
      let r := nameIndex rest name
      if r < 0 then -1 else r + 1

/-- Modelled from the spec: `SkinData::getSkinBoneNameIndex`. -/
def getSkinBoneNameIndex (sd : SkinData) (name : String) : Int :=
  nameIndex sd.skinBoneNames name

/-- Modelled from the spec: `SkinData::getBoneNameIndex` over the combined
skin-bone + node-bone name list. -/
def getBoneNameIndex (sd : SkinData) (name : String) : Int :=
  nameIndex (sd.skinBoneNames ++ sd.nodeBoneNames) name

/-- Modelled from the spec: `SkinData::addSkinBoneNames` — append if absent. -/
def addSkinBoneNames (sd : SkinData) (name : String) : SkinData :=
  if name ∈ sd.skinBoneNames then sd
  else { sd with skinBoneNames := sd.skinBoneNames ++ [name] }

/-- Modelled from the spec: `SkinData::addNodeBoneNames` — append if absent. -/
def addNodeBoneNames (sd : SkinData) (name : String) : SkinData :=
  if name ∈ sd.nodeBoneNames then sd
  else { sd with nodeBoneNames := sd.nodeBoneNames ++ [name] }

/-- `std::vector::resize` with default-constructed (identity) matrices. -/
def resizeWithDefault (l : List (List Rat)) (n : Nat) : List (List Rat) :=
  l.take n ++ List.replicate (n - l.length) mat4Identity

/-- Overwrite `skinBoneOriginMatrices[idx]`. -/
def setSkinOrigin (sd : SkinData) (idx : Int) (m : List Rat) : SkinData :=
  { sd with skinBoneOriginMatrices := sd.skinBoneOriginMatrices.set idx.toNat m }

/-- `std::map<int, std::vector<int>>` operator[] followed by `emplace_back`:
the key is kept in sorted order as `std::map` does. -/
def mapChildAdd : List (Int × List Int) → Int → Int → List (Int × List Int)
  | [], key, val => [(key, [val])]
  | (k, vs) :: rest, key, val =>
    if key = k then (k, vs ++ [val]) :: rest
    else if key < k then (key, [val]) :: (k, vs) :: rest
    else (k, vs) :: mapChildAdd rest key val

/-- Children recorded for a key in the adjacency map (empty if absent). -/
def mapChildFind : List (Int × List Int) → Int → List Int
  | [], _ => []
  | (k, vs) :: rest, key => if key = k then vs else mapChildFind rest key

/-- One mesh-part binding of a node (`ModelData`). -/
structure ModelData where
  subMeshId : String := ""
  materialId : String := ""
  bones : List String := []
  invBindPose : List (List Rat) := []
deriving DecidableEq

/-- One node of the reconstructed hierarchy (`NodeData`).  `children` holds
`Option` entries because the reference implementation stores the raw result of
the recursive parse — a null pointer when a child subtree failed. -/
inductive NodeData where
  | mk (id : String) (transform : List Rat) (modelNodeDatas : List ModelData)
      (children : List (Option NodeData)) : NodeData

def NodeData.id : NodeData → String
  | .mk i _ _ _ => i

def NodeData.transform : NodeData → List Rat
  | .mk _ t _ _ => t

def NodeData.modelNodeDatas : NodeData → List ModelData
  | .mk _ _ m _ => m

def NodeData.children : NodeData → List (Option NodeData)
  | .mk _ _ _ c => c

/-- The node-hierarchy aggregate (`NodeDatas`): plain nodes and skeleton
roots. -/
structure NodeDatas where
  nodes : List (Option NodeData) := []
  skeleton : List (Option NodeData) := []

/-- A time-keyed vector value (`Animation3DData::Vec3Key`). -/
structure Vec3Key where
  time : Rat
  x : Rat
  y : Rat
  z : Rat
deriving DecidableEq

/-- A time-keyed quaternion value (`Animation3DData::QuatKey`). -/
structure QuatKey where
  time : Rat
  x : Rat
  y : Rat
  z : Rat
  w : Rat
deriving DecidableEq

/-- Keyed animation channels (`Animation3DData`).  The bone-name maps are
modelled as key-sorted association lists, matching `std::map` ordering. -/
structure Animation3DData where
  totalTime : Rat := 0
  translationKeys : List (String × List Vec3Key) := []
  rotationKeys : List (String × List QuatKey) := []
  scaleKeys : List (String × List Vec3Key) := []
deriving DecidableEq

/-- `std::map` operator[] used for `reserve`: materialise the key with an
empty vector if absent (sorted insertion). -/
def mapTouch {α : Type} : List (String × List α) → String → List (String × List α)
  | [], k => [(k, [])]
  | (k0, vs) :: rest, k =>
    if k = k0 then (k0, vs) :: rest
    else if k < k0 then (k, []) :: (k0, vs) :: rest
    else (k0, vs) :: mapTouch rest k

/-- `std::map` operator[] followed by `emplace_back` of one key entry. -/
def mapPush {α : Type} : List (String × List α) → String → α → List (String × List α)
  | [], k, v => [(k, [v])]
  | (k0, vs) :: rest, k, v =>
    if k = k0 then (k0, vs ++ [v]) :: rest
    else if k < k0 then (k, [v]) :: (k0, vs) :: rest
    else (k0, vs) :: mapPush rest k v

/-- One reference-table entry (`Reference`): id, type tag, byte offset. -/
structure Reference where
  id : String
  type : Nat
  offset : Nat
deriving DecidableEq

/-- The bundle facade state (`Bundle3D` members). -/
structure Bundle3D where
  modelPath : String := ""
  path : String := ""
  version : String := ""
  referenceCount : Nat := 0
  references : List Reference := []
  isBinary : Bool := false
  binaryBuffer : List Nat := []
  reader : BundleReader := ⟨[], 0⟩
  jsonBuffer : String := ""
  jsonDoc : Option JVal := none

/-- External collaborators (file reading, extension sniffing, JSON parsing);
out of scope per the spec, abstracted as an environment. -/
structure FileEnv where
  getExtension : String → String
  readData : String → Option (List Nat)
  readText : String → String
  parseJson : String → Option JVal

namespace Bundle3D

def BUNDLE_TYPE_NODE : Nat := 2
def BUNDLE_TYPE_ANIMATIONS : Nat := 3
def BUNDLE_TYPE_MATERIAL : Nat := 16
def BUNDLE_TYPE_MESH : Nat := 34
def BUNDLE_TYPE_MESHSKIN : Nat := 36

/-- `Bundle3D::clear`. -/
def clear (st : Bundle3D) : Bundle3D :=
  if st.isBinary then { st with binaryBuffer := [], references := [] }
  else { st with jsonBuffer := "" }

/-- Characters of a path up to and including the last slash (empty if none) —
the body of `Bundle3D::getModelRelativePath`. -/
def upToLastSlash (s : String) : String :=
  String.mk ((s.data.reverse.dropWhile (fun c => c ≠ '/')).reverse)

/-- `Bundle3D::getModelRelativePath`. -/
def getModelRelativePath (st : Bundle3D) (path : String) : Bundle3D :=
  { st with modelPath := upToLastSlash path }

/-- `Bundle3D::seekToFirstType` scan over the reference table. -/
def seekScan : List Reference → BundleReader → Nat → String → Option (Reference × BundleReader)
  | [], _, _, _ => none
  | ref :: rest, r, ty, id =>
    if ref.type = ty then
      if id ≠ "" ∧ id ≠ ref.id then seekScan rest r ty id
      else
        match seek r ref.offset with
        | none => none
        | some r' => some (ref, r')
    else seekScan rest r ty id

/-- `Bundle3D::seekToFirstType`: find the first matching reference and seek the
reader to its offset. -/
def seekToFirstType (st : Bundle3D) (ty : Nat) (id : String) : Option (Reference × BundleReader) :=
  seekScan (st.references.take st.referenceCount) st.reader ty id

/-- The reference-table read loop of `Bundle3D::loadBinary`: an empty id or a
short read of the type or offset aborts the load. -/
def refLoop : Nat → BundleReader → List Reference → Option (List Reference × BundleReader)
  | 0, r, acc => some (acc, r)
  | n + 1, r, acc =>
    let (id, r1) := readString r
    if id = "" then none
    else
      match read4 r1 with
      | none => none
      | some (ty, r2) =>
        match read4 r2 with
        | none => none
        | some (off, r3) => refLoop n r3 (acc ++ [⟨id, ty, off⟩])

/-- The dotted version string formatted from the two version bytes. -/
def versionOf (major minor : Nat) : String :=
  toString major ++ "." ++ toString minor

/-- `Bundle3D::loadBinary`: clear, read the file, check the `C3B\0` magic,
read the version pair, the reference count and the reference table.  The
version-read failure path returns without clearing, exactly as the source
does. -/
def loadBinary (env : FileEnv) (st0 : Bundle3D) (path : String) : Bool × Bundle3D :=
  let st := clear st0
  let st := { st with binaryBuffer := [] }
  match env.readData path with
  | none => (false, clear st)
  | some data =>
    let st := { st with binaryBuffer := data, reader := ⟨data, 0⟩ }
    match readBytes st.reader 4 with
    | none => (false, clear st)
    | some (sig, r) =>
      if sig ≠ [67, 51, 66, 0] then (false, clear st)
      else
        match readBytes r 2 with
        | none => (false, { st with reader := r })
        | some (ver, r1) =>
          let st := { st with version := versionOf (ver.getD 0 0) (ver.getD 1 0) }
          match read4 r1 with
          | none => (false, clear { st with reader := r1 })
          | some (refCount, r2) =>
            let st := { st with referenceCount := refCount }
            match refLoop refCount r2 [] with
            | none => (false, { clear st with references := [] })
            | some (refs, r3) => (true, { st with references := refs, reader := r3 })

/-- `Bundle3D::loadJson`: clear, read the text, parse in place, extract the
version field (a legacy array-shaped version normalises to "1.2").  A missing
or non-string version is an assertion failure in the reference implementation,
modelled as load failure. -/
def loadJson (env : FileEnv) (st0 : Bundle3D) (path : String) : Bool × Bundle3D :=
  let st := clear st0
  let buf := env.readText path
  let st := { st with jsonBuffer := buf }
  match env.parseJson buf with
  | none => (false, clear st)
  | some doc =>
    let st := { st with jsonDoc := some doc }
    match jMember doc "version" with
    | some (.jarr _) => (true, { st with version := "1.2" })
    | some (.jstr s) => (true, { st with version := s })
    | _ => (false, st)

/-- The extension dispatch inside `Bundle3D::load`: ".c3t" selects the JSON
loader, ".c3b" the binary loader, anything else is an immediate failure with a
logged warning. -/
def loadDispatch (env : FileEnv) (st1 : Bundle3D) (path : String) : Bool × Bundle3D :=
  if env.getExtension path = ".c3t" then loadJson env { st1 with isBinary := false } path
  else if env.getExtension path = ".c3b" then loadBinary env { st1 with isBinary := true } path
  else (false, st1)

/-- `Bundle3D::load`: empty-path guard, same-path no-op shortcut, extension
dispatch, and the success/failure path bookkeeping. -/
def load (env : FileEnv) (st : Bundle3D) (path : String) : Bool × Bundle3D :=
  if path = "" then (false, st)
  else if st.path = path then (true, st)
  else
    let pr := loadDispatch env (getModelRelativePath st path) path
    if pr.1 then (true, { pr.2 with path := path }) else (false, { pr.2 with path := "" })

/-- Mirrors the branch structure of `load`: true exactly when the call gets
past the empty-path guard and the same-path shortcut, i.e. performs format
detection, clearing and a format-loader call (or the invalid-extension
warning). -/
def loadPerformsParse (st : Bundle3D) (path : String) : Bool :=
  ¬ (path = "" ∨ st.path = path)

end Bundle3D

namespace Bundle3D

/-- The per-attribute read loop of `loadMeshDatasBinary`: component size, type
string and semantic string per attribute; a short size read aborts. -/
def attribLoop : Nat → BundleReader → List MeshVertexAttrib → Option (List MeshVertexAttrib × BundleReader)
  | 0, r, acc => some (acc, r)
  | n + 1, r, acc =>
    match read4 r with
    | none => none
    | some (vSize, r1) =>
      let (ty, r2) := readString r1
      let (attrName, r3) := readString r2
      attribLoop n r3 (acc ++ [⟨parseGLDataType ty vSize, parseGLProgramAttribute attrName⟩])

/-- The per-part read loop of `loadMeshDatasBinary`: part id, index count,
16-bit index array, then — except for versions "0.3"/"0.4"/"0.5", which
compute it — a 6-float bounding box from the file. -/
def partLoop (version : String) : Nat → BundleReader → MeshData → Option (MeshData × BundleReader)
  | 0, r, md => some (md, r)
  | k + 1, r, md =>
    let (meshPartid, r1) := readString r
    let md := { md with subMeshIds := md.subMeshIds ++ [meshPartid] }
    match read4 r1 with
    | none => none
    | some (nIndexCount, r2) =>
      match read2n r2 nIndexCount with
      | none => none
      | some (indices, r3) =>
        let md := { md with subMeshIndices := md.subMeshIndices ++ [indices] }
        let md := { md with numIndex := md.subMeshIndices.length }
        if version ≠ "0.3" ∧ version ≠ "0.4" ∧ version ≠ "0.5" then
          match read4n r3 6 with
          | none => none
          | some (aabb, r4) =>
            partLoop version k r4
              { md with subMeshAABB := md.subMeshAABB ++ [.fromFile (wordsToMat aabb)] }
        else
          partLoop version k r3
            { md with subMeshAABB :=
                md.subMeshAABB ++ [calculateAABB md.vertex (getPerVertexSize md) indices] }

/-- The per-mesh read loop of `loadMeshDatasBinary`.  A failure anywhere in
the loop is the `goto FAILED` path: `none` makes the caller release every
entry and clear the aggregate.  The sub-mesh-part count defaults to 1 and its
read result is not checked in the source. -/
def meshLoop (version : String) : Nat → BundleReader → List MeshData → Option (List MeshData × BundleReader)
  | 0, r, acc => some (acc, r)
  | n + 1, r, acc =>
    match read4 r with
    | none => none
    | some (attribSize, r1) =>
      if attribSize < 1 then none
      else
        match attribLoop attribSize r1 [] with
        | none => none
        | some (attribs, r2) =>
          let md : MeshData := { attribCount := attribSize, attribs := attribs }
          match read4 r2 with
          | none => none
          | some (vertexSizeInFloat, r3) =>
            if vertexSizeInFloat = 0 then none
            else
              match read4n r3 vertexSizeInFloat with
              | none => none
              | some (vwords, r4) =>
                let md := { md with vertex := wordsToMat vwords }
                let (meshPartCount, r5) := readOr r4 1
                match partLoop version meshPartCount r5 md with
                | none => none
                | some (md, r6) => meshLoop version n r6 (acc ++ [md])

/-- `Bundle3D::loadMeshDatasBinary`: seek to the MESH section, read the mesh
count, run the mesh loop; on an in-loop failure every partially built entry is
released and the aggregate is cleared before returning failure. -/
def loadMeshDatasBinary (st : Bundle3D) (meshdatas : MeshDatas) : Bool × MeshDatas :=
  match seekToFirstType st BUNDLE_TYPE_MESH "" with
  | none => (false, meshdatas)
  | some (_, r) =>
    match read4 r with
    | none => (false, meshdatas)
    | some (meshSize, r1) =>
      match meshLoop st.version meshSize r1 meshdatas.meshDatas with
      | none => (false, { meshDatas := [] })
      | some (lst, _) => (true, { meshDatas := lst })

/-- One texture record of `loadMaterialsBinary` (current format): an empty
texture id or an empty texture path is a hard failure; the four UV floats are
read unchecked and discarded. -/
def texRecord (modelPath : String) (r : BundleReader) : Option (NTextureData × BundleReader) :=
  let (tid, r1) := readString r
  if tid = "" then none
  else
    let (texturePath, r2) := readString r1
    if texturePath = "" then none
    else
      let r3 := skipBytes r2 16
      let (tyS, r4) := readString r3
      let (wS, r5) := readString r4
      let (wT, r6) := readString r5
      some ({ id := tid, filename := modelPath ++ texturePath,
              type := parseGLTextureType tyS,
              wrapS := parseSamplerAddressMode wS,
              wrapT := parseSamplerAddressMode wT }, r6)

/-- The per-texture read loop of `loadMaterialsBinary` (current format). -/
def texLoop (modelPath : String) : Nat → BundleReader → List NTextureData → Option (List NTextureData × BundleReader)
  | 0, r, acc => some (acc, r)
  | j + 1, r, acc =>
    match texRecord modelPath r with
    | none => none
    | some (td, r6) => texLoop modelPath j r6 (acc ++ [td])

/-- The per-material read loop of `loadMaterialsBinary`: id string, 14
discarded lighting floats (read unchecked), texture count (defaulting to 1,
read unchecked), then the texture loop.  On failure the materials already
emplaced stay in the aggregate — this loader has no cleanup path. -/
def matLoop (modelPath : String) : Nat → BundleReader → List NMaterialData → Bool × List NMaterialData
  | 0, _, acc => (true, acc)
  | i + 1, r, acc =>
    let (mid, r1) := readString r
    let r2 := skipBytes r1 56
    let (textureNum, r3) := readOr r2 1
    match texLoop modelPath textureNum r3 [] with
    | none => (false, acc)
    | some (texs, r4) => matLoop modelPath i r4 (acc ++ [{ id := mid, textures := texs }])

/-- `Bundle3D::loadMaterialsBinary` (current format). -/
def loadMaterialsBinary (st : Bundle3D) (materialdatas : MaterialDatas) : Bool × MaterialDatas :=
  match seekToFirstType st BUNDLE_TYPE_MATERIAL "" with
  | none => (false, materialdatas)
  | some (_, r) =>
    let (materialnum, r1) := readOr r 1
    let (ok, lst) := matLoop st.modelPath materialnum r1 materialdatas.materials
    (ok, { materials := lst })

/-- The per-material loop of `loadMaterialsBinary_0_2`: one texture path per
material; an empty path returns success immediately, keeping only the entries
built so far (the documented historical quirk). -/
def matLoop02 (modelPath : String) : Nat → BundleReader → List NMaterialData → Bool × List NMaterialData
  | 0, _, acc => (true, acc)
  | i + 1, r, acc =>
    let (texturePath, r1) := readString r
    if texturePath = "" then (true, acc)
    else
      matLoop02 modelPath i r1
        (acc ++ [{ id := "",
                   textures := [{ id := "", filename := modelPath ++ texturePath,
                                  type := .Diffuse }] }])

/-- `Bundle3D::loadMaterialsBinary_0_2` (version "0.2" binary): count
(defaulting to 1, read unchecked), then one implicit diffuse texture path per
material. -/
def loadMaterialsBinary_0_2 (st : Bundle3D) (materialdatas : MaterialDatas) : Bool × MaterialDatas :=
  match seekToFirstType st BUNDLE_TYPE_MATERIAL "" with
  | none => (false, materialdatas)
  | some (_, r) =>
    let (materialnum, r1) := readOr r 1
    let (ok, lst) := matLoop02 st.modelPath materialnum r1 materialdatas.materials
    (ok, { materials := lst })

end Bundle3D

namespace Bundle3D

/-- The per-bone read loop of `loadSkinDataBinary`: bone name (pushed before
the matrix is read, as in the source) then a 16-float inverse bind matrix. -/
def skinBoneLoop : Nat → BundleReader → SkinData → Option (SkinData × BundleReader)
  | 0, r, sd => some (sd, r)
  | i + 1, r, sd =>
    let (skinBoneName, r1) := readString r
    let sd := { sd with skinBoneNames := sd.skinBoneNames ++ [skinBoneName] }
    match readMatrix r1 with
    | none => none
    | some (m, r2) =>
      skinBoneLoop i r2
        { sd with inverseBindPoseMatrices := sd.inverseBindPoseMatrices ++ [wordsToMat m] }

/-- The hierarchy-link read loop of `loadSkinDataBinary`: child id, parent id
and a 16-float transform per link; unknown names become node bones with
lazily assigned combined indices. -/
def linkLoop : Nat → BundleReader → SkinData → Option (SkinData × BundleReader)
  | 0, r, sd => some (sd, r)
  | i + 1, r, sd =>
    let (id, r1) := readString r
    let index0 := getSkinBoneNameIndex sd id
    let (parentid, r2) := readString r1
    match readMatrix r2 with
    | none => none
    | some (mw, r3) =>
      let transform := wordsToMat mw
      let (sd1, index) :=
        if index0 < 0 then
          let sd' := addNodeBoneNames sd id
          ({ sd' with nodeBoneOriginMatrices := sd'.nodeBoneOriginMatrices ++ [transform] },
           getBoneNameIndex sd' id)
        else (setSkinOrigin sd index0 transform, index0)
      let (sd2, parentIndex) :=
        let pi0 := getSkinBoneNameIndex sd1 parentid
        if pi0 < 0 then
          let sd' := addNodeBoneNames sd1 parentid
          (sd', getBoneNameIndex sd' parentid)
        else (sd1, pi0)
      linkLoop i r3 { sd2 with boneChild := mapChildAdd sd2.boneChild parentIndex index }

/-- The root-record step of `loadSkinDataBinary`: look the root name up among
the skin bones; a known name receives the bind-shape matrix as its origin, an
unknown one becomes a node bone.  Returns the updated skin data and the
combined index that becomes the root bone index. -/
def skinRootRecord (sd2 : SkinData) (boneName : String) (bindShape : List Rat) : SkinData × Int :=
  let rootIndex0 := getSkinBoneNameIndex sd2 boneName
  if rootIndex0 < 0 then
    let sd' := addNodeBoneNames sd2 boneName
    ({ sd' with nodeBoneOriginMatrices := sd'.nodeBoneOriginMatrices ++ [bindShape] },
     getBoneNameIndex sd' boneName)
  else (setSkinOrigin sd2 rootIndex0 bindShape, rootIndex0)

/-- Attach the designated root bone index produced by the root record. -/
def withRoot (pr : SkinData × Int) : SkinData :=
  { pr.1 with rootBoneIndex := pr.2 }

/-- `Bundle3D::loadSkinDataBinary`.  A bone count of zero is a hard failure.
The root record's matrix read and the link-count read are unchecked in the
source: a failed matrix read leaves the previously read bind-shape contents in
the buffer, and a failed count read leaves an indeterminate (uninitialised)
count — the latter undefined behaviour is modelled as a zero link count.  On
failure the partially-written output parameter is discarded (every caller
ignores it). -/
def loadSkinDataBinary (st : Bundle3D) (sd0 : SkinData) : Bool × SkinData :=
  match seekToFirstType st BUNDLE_TYPE_MESHSKIN "" with
  | none => (false, sd0)
  | some (_, r) =>
    let (_, r1) := readString r
    match readMatrix r1 with
    | none => (false, sd0)
    | some (bindShape0, r2) =>
      match read4 r2 with
      | none => (false, sd0)
      | some (boneNum, r3) =>
        if boneNum = 0 then (false, sd0)
        else
          match skinBoneLoop boneNum r3 sd0 with
          | none => (false, sd0)
          | some (sd1, r4) =>
            let sd2 := { sd1 with
              skinBoneOriginMatrices := resizeWithDefault sd1.skinBoneOriginMatrices boneNum }
            let (boneName, r5) := readString r4
            let (bindShape, r6) :=
              match readMatrix r5 with
              | some (m, r') => (wordsToMat m, r')
              | none => (wordsToMat bindShape0, r5)
            let sd4 := withRoot (skinRootRecord sd2 boneName bindShape)
            let (linkNum, r7) := readOr r6 0
            match linkLoop linkNum r7 sd4 with
            | none => (false, sd0)
            | some (sd5, _) => (true, sd5)

/-- The per-bone fold of `loadSkinDataJson`: bone node name and bind-shape
matrix per entry. -/
def skinJsonBones : List JVal → SkinData → Option SkinData
  | [], sd => some sd
  | bone :: rest, sd =>
    match jGetStr (jMember bone "node") with
    | none => none
    | some name =>
      let sd := addSkinBoneNames sd name
      match jArr (jMember bone "bindshape") with
      | none => none
      | some entries =>
        match matFromJson entries with
        | none => none
        | some m =>
          skinJsonBones rest { sd with inverseBindPoseMatrices := sd.inverseBindPoseMatrices ++ [m] }

mutual

/-- The recursive bone-hierarchy walk `getChildMap` (JSON).  The fuel argument
bounds the structural recursion over the document and is always sufficient
(each child is a structurally smaller JSON value). -/
def getChildMapF : Nat → List (Int × List Int) → SkinData → JVal → Option (List (Int × List Int) × SkinData)
  | 0, _, _, _ => none
  | fuel + 1, map, sd, val =>
    match jArr (jMember val "tansform") with
    | none => none
    | some tentries =>
      match matFromJson tentries with
      | none => none
      | some transform =>
        match jGetStr (jMember val "id") with
        | none => none
        | some parentName =>
          let pn0 := getSkinBoneNameIndex sd parentName
          let (sd1, parentNameIndex) :=
            if pn0 < 0 then
              let sd' := addNodeBoneNames sd parentName
              ({ sd' with nodeBoneOriginMatrices := sd'.nodeBoneOriginMatrices ++ [transform] },
               getBoneNameIndex sd' parentName)
            else if pn0 < (sd.skinBoneNames.length : Int) then
              (setSkinOrigin sd pn0 transform, pn0)
            else (sd, pn0)
          let sd2 :=
            if sd1.rootBoneIndex < 0 then { sd1 with rootBoneIndex := parentNameIndex } else sd1
          if ¬ jHas val "children" then some (map, sd2)
          else
            match jArr (jMember val "children") with
            | none => none
            | some children => getChildMapChildren fuel map sd2 parentNameIndex children

/-- The child loop inside `getChildMap`: assign the child an index (lazily
adding a node bone), record the parent-child edge, recurse. -/
def getChildMapChildren : Nat → List (Int × List Int) → SkinData → Int → List JVal → Option (List (Int × List Int) × SkinData)
  | _, map, sd, _, [] => some (map, sd)
  | fuel, map, sd, parentIdx, child :: rest =>
    match jGetStr (jMember child "id") with
    | none => none
    | some childName =>
      let cn0 := getSkinBoneNameIndex sd childName
      let (sd1, childNameIndex) :=
        if cn0 < 0 then
          let sd' := addNodeBoneNames sd childName
          (sd', getBoneNameIndex sd' childName)
        else (sd, cn0)
      let map1 := mapChildAdd map parentIdx childNameIndex
      match getChildMapF fuel map1 sd1 child with
      | none => none
      | some (map2, sd2) => getChildMapChildren fuel map2 sd2 parentIdx rest

end

/-- `getChildMap` with its always-sufficient structural fuel. -/
def getChildMap (map : List (Int × List Int)) (sd : SkinData) (val : JVal) : Option (List (Int × List Int) × SkinData) :=
  getChildMapF (jWeight val) map sd val

/-- `Bundle3D::loadSkinDataJson`: the "skin" array holds the bind-pose bone
list at entry 0 and the bone hierarchy at entry 1.  Out-of-range accesses and
missing members are assertion failures in the reference implementation,
modelled as load failure. -/
def loadSkinDataJson (st : Bundle3D) (sd0 : SkinData) : Bool × SkinData :=
  match st.jsonDoc with
  | none => (false, sd0)
  | some doc =>
    if ¬ jHas doc "skin" then (false, sd0)
    else
      match jArr (jMember doc "skin") with
      | none => (false, sd0)
      | some skinArr =>
        match skinArr.get? 0 with
        | none => (false, sd0)
        | some sk0 =>
          if ¬ jHas sk0 "bones" then (false, sd0)
          else
            match jArr (jMember sk0 "bones") with
            | none => (false, sd0)
            | some bones =>
              match skinJsonBones bones sd0 with
              | none => (false, sd0)
              | some sd1 =>
                match skinArr.get? 1 with
                | none => (false, sd0)
                | some sk1 =>
                  let sd2 := { sd1 with
                    skinBoneOriginMatrices :=
                      resizeWithDefault sd1.skinBoneOriginMatrices sd1.skinBoneNames.length }
                  match getChildMap sd2.boneChild sd2 sk1 with
                  | none => (false, sd0)
                  | some (map, sd3) => (true, { sd3 with boneChild := map })

/-- `Bundle3D::loadSkinData`: reset the aggregate, dispatch on the detected
format. -/
def loadSkinData (st : Bundle3D) : Bool × SkinData :=
  if st.isBinary then loadSkinDataBinary st {} else loadSkinDataJson st {}

end Bundle3D

namespace Bundle3D

/-- The legacy-transform version gate shared by both node parsers: versions
"0.1" through "0.6" force the transform of skinned or single-sprite nodes to
identity. -/
def isLegacyNodeVersion (version : String) : Bool :=
  version == "0.1" || version == "0.2" || version == "0.3" ||
  version == "0.4" || version == "0.5" || version == "0.6"

/-- The per-bone fold inside a JSON part: a bone without a "node" member is a
hard parse failure; the inverse bind matrix is read from "transform". -/
def bonesFoldJ : List JVal → List String → List (List Rat) → Option (List String × List (List Rat))
  | [], names, mats => some (names, mats)
  | bone :: rest, names, mats =>
    if ¬ jHas bone "node" then none
    else
      match jGetStr (jMember bone "node") with
      | none => none
      | some name =>
        match jArr (jMember bone "transform") with
        | none => none
        | some tentries =>
          match matFromJson tentries with
          | none => none
          | some inv => bonesFoldJ rest (names ++ [name]) (mats ++ [inv])

/-- The per-part fold of `parseNodesRecursivelyJson`: an empty mesh-part id or
material id discards the in-progress node (`none`); a part with a non-empty
bone list marks the node as skinned. -/
def partsFold : List JVal → List ModelData → Bool → Option (List ModelData × Bool)
  | [], acc, isSkin => some (acc, isSkin)
  | part :: rest, acc, isSkin =>
    match jGetStr (jMember part "meshpartid"), jGetStr (jMember part "materialid") with
    | some subMeshId, some materialId =>
      if subMeshId = "" ∨ materialId = "" then none
      else if jHas part "bones" then
        match jArr (jMember part "bones") with
        | none => none
        | some bonesArr =>
          match bonesFoldJ bonesArr [] [] with
          | none => none
          | some (names, mats) =>
            partsFold rest
              (acc ++ [{ subMeshId := subMeshId, materialId := materialId,
                         bones := names, invBindPose := mats }])
              (isSkin || !bonesArr.isEmpty)
      else
        partsFold rest (acc ++ [{ subMeshId := subMeshId, materialId := materialId }]) isSkin
    | _, _ => none

/-- `Bundle3D::parseNodesRecursivelyJson`, fuel-indexed.  The fuel bounds the
structural recursion over the document and the wrapper always supplies enough
of it.  Every child parse result — including a null one — is appended to the
parent's child collection, exactly as the source stores the raw recursive
result. -/
def parseNodesJsonF (version : String) : Nat → JVal → Bool → Option NodeData
  | 0, _, _ => none
  | fuel + 1, jvalue, singleSprite =>
    match jGetStr (jMember jvalue "id") with
    | none => none
    | some id =>
      match jArr (jMember jvalue "transform") with
      | none => none
      | some tentries =>
        match matFromJson tentries with
        | none => none
        | some transform =>
          match
            (if jHas jvalue "parts" then
              match jArr (jMember jvalue "parts") with
              | none => none
              | some parts => partsFold parts [] false
            else some ([], false)) with
          | none => none
          | some (mnds, isSkin) =>
            let finalTransform :=
              if isLegacyNodeVersion version then
                if isSkin || singleSprite then mat4Identity else transform
              else transform
            if jHas jvalue "children" then
              match jArr (jMember jvalue "children") with
              | none => none
              | some cs =>
                some (.mk id finalTransform mnds
                  (cs.map (fun c => parseNodesJsonF version fuel c singleSprite)))
            else some (.mk id finalTransform mnds [])

/-- `parseNodesRecursivelyJson` with its always-sufficient structural fuel. -/
def parseNodesRecursivelyJson (version : String) (jvalue : JVal) (singleSprite : Bool) : Option NodeData :=
  parseNodesJsonF version (jWeight jvalue) jvalue singleSprite

/-- The top-level node fold of `loadNodesJson`: each entry is parsed
recursively and routed to the skeleton or plain node list by its "skeleton"
flag. -/
def nodesFoldJ (version : String) (total : Nat) : List JVal → NodeDatas → Bool × NodeDatas
  | [], nd => (true, nd)
  | jnode :: rest, nd =>
    match jGetStr (jMember jnode "id") with
    | none => (false, nd)
    | some _ =>
      let nodedata := parseNodesRecursivelyJson version jnode (total == 1)
      match jGetBool (jMember jnode "skeleton") with
      | none => (false, nd)
      | some isSkeleton =>
        if isSkeleton then
          nodesFoldJ version total rest { nd with skeleton := nd.skeleton ++ [nodedata] }
        else
          nodesFoldJ version total rest { nd with nodes := nd.nodes ++ [nodedata] }

/-- `Bundle3D::loadNodesJson`. -/
def loadNodesJson (st : Bundle3D) (nodedatas : NodeDatas) : Bool × NodeDatas :=
  match st.jsonDoc with
  | none => (false, nodedatas)
  | some doc =>
    if ¬ jHas doc "nodes" then (false, nodedatas)
    else
      match jMember doc "nodes" with
      | some (.jarr nodes) => nodesFoldJ st.version nodes.length nodes nodedatas
      | _ => (false, nodedatas)

/-- The per-bone read loop inside a binary part. -/
def bonesLoopB : Nat → BundleReader → List String → List (List Rat) → Option (List String × List (List Rat)) × BundleReader
  | 0, r, names, mats => (some (names, mats), r)
  | j + 1, r, names, mats =>
    let (name, r1) := readString r
    match readMatrix r1 with
    | none => (none, r1)
    | some (mw, r2) => bonesLoopB j r2 (names ++ [name]) (mats ++ [wordsToMat mw])

/-- The inner UV-index skip loop of the binary node parser. -/
def uvIndexLoop : Nat → BundleReader → Option BundleReader
  | 0, r => some r
  | k + 1, r =>
    match read4 r with
    | none => none
    | some (_, r1) => uvIndexLoop k r1

/-- The UV-mapping skip loop of the binary node parser (values read and
discarded). -/
def uvMappingLoop : Nat → BundleReader → Option BundleReader
  | 0, r => some r
  | j + 1, r =>
    match read4 r with
    | none => none
    | some (texIdxSize, r1) =>
      match uvIndexLoop texIdxSize r1 with
      | none => none
      | some r2 => uvMappingLoop j r2

/-- The per-part read loop of `parseNodesRecursivelyBinary`: sub-mesh id and
material id (either empty discards the node), bone list, discarded UV
mapping. -/
def partsLoopB : Nat → BundleReader → List ModelData → Bool → Option (List ModelData × Bool) × BundleReader
  | 0, r, acc, isSkin => (some (acc, isSkin), r)
  | i + 1, r, acc, isSkin =>
    let (subMeshId, r1) := readString r
    let (materialId, r2) := readString r1
    if subMeshId = "" ∨ materialId = "" then (none, r2)
    else
      match read4 r2 with
      | none => (none, r2)
      | some (bonesSize, r3) =>
        match bonesLoopB bonesSize r3 [] [] with
        | (none, r4) => (none, r4)
        | (some (names, mats), r4) =>
          let isSkin := isSkin || decide (0 < bonesSize)
          match read4 r4 with
          | none => (none, r4)
          | some (uvMapping, r5) =>
            match uvMappingLoop uvMapping r5 with
            | none => (none, r5)
            | some r6 =>
              partsLoopB i r6
                (acc ++ [{ subMeshId := subMeshId, materialId := materialId,
                           bones := names, invBindPose := mats }]) isSkin

/-- The child loop of the binary node parser, abstracted over the one-level
recursive parse so the recursion is structural in the fuel. -/
def childLoopWith (p : BundleReader → Bool → Option NodeData × BundleReader × Bool) :
    Nat → BundleReader → Bool → List (Option NodeData) → List (Option NodeData) × BundleReader × Bool
  | 0, r, skeleton, acc => (acc, r, skeleton)
  | i + 1, r, skeleton, acc =>
    let (child, r1, skel1) := p r skeleton
    childLoopWith p i r1 skel1 (acc ++ [child])

/-- `Bundle3D::parseNodesRecursivelyBinary`, fuel-indexed: node id, skeleton
flag, 16-float transform, part list, version-gated transform replacement, then
the recursively parsed children (null children are appended as read). -/
def parseNodesBinaryF (version : String) : Nat → BundleReader → Bool → Bool → Option NodeData × BundleReader × Bool
  | 0, r, skeleton, _ => (none, r, skeleton)
  | fuel + 1, r, skeleton, singleSprite =>
    let (id, r1) := readString r
    match read1 r1 with
    | none => (none, r1, skeleton)
    | some (skelByte, r2) =>
      let skeleton := skeleton || decide (skelByte ≠ 0)
      match readMatrix r2 with
      | none => (none, r2, skeleton)
      | some (mw, r3) =>
        let transform := wordsToMat mw
        match read4 r3 with
        | none => (none, r3, skeleton)
        | some (partsSize, r4) =>
          match partsLoopB partsSize r4 [] false with
          | (none, r5) => (none, r5, skeleton)
          | (some (mnds, isSkin), r5) =>
            let finalTransform :=
              if isLegacyNodeVersion version then
                if isSkin || singleSprite then mat4Identity else transform
              else transform
            match read4 r5 with
            | none => (none, r5, skeleton)
            | some (childrenSize, r6) =>
              let (children, r7, skel2) :=
                childLoopWith (fun rr sk => parseNodesBinaryF version fuel rr sk singleSprite)
                  childrenSize r6 skeleton []
              (some (.mk id finalTransform mnds children), r7, skel2)

/-- `parseNodesRecursivelyBinary` with fuel bounded by the remaining bytes
(every recursion level consumes many bytes before descending, so the fuel is
always sufficient). -/
def parseNodesRecursivelyBinary (version : String) (r : BundleReader) (skeleton : Bool) (singleSprite : Bool) :
    Option NodeData × BundleReader × Bool :=
  parseNodesBinaryF version (r.buffer.length - r.pos + 1) r skeleton singleSprite

/-- The top-level node loop of `loadNodesBinary`: the skeleton flag is reset
for every root entry and routes the parse result. -/
def nodesLoopB (version : String) (single : Bool) : Nat → BundleReader → NodeDatas → NodeDatas
  | 0, _, nd => nd
  | i + 1, r, nd =>
    let (nodedata, r1, skeleton) := parseNodesRecursivelyBinary version r false single
    if skeleton then nodesLoopB version single i r1 { nd with skeleton := nd.skeleton ++ [nodedata] }
    else nodesLoopB version single i r1 { nd with nodes := nd.nodes ++ [nodedata] }

/-- `Bundle3D::loadNodesBinary`. -/
def loadNodesBinary (st : Bundle3D) (nodedatas : NodeDatas) : Bool × NodeDatas :=
  match seekToFirstType st BUNDLE_TYPE_NODE "" with
  | none => (false, nodedatas)
  | some (_, r) =>
    match read4 r with
    | none => (false, nodedatas)
    | some (nodeSize, r1) =>
      (true, nodesLoopB st.version (nodeSize == 1) nodeSize r1 nodedatas)

/-- The bone-node tree assembled by the legacy branch of `loadNodes` from the
skin adjacency map.  The reference implementation wires child pointers into a
shared node array; that construction is modelled as a bounded tree unfolding
from a root index (a cyclic adjacency, which would produce a cyclic pointer
structure, is truncated by the fuel). -/
def boneTree (ids : List String) (mats : List (List Rat)) (childMap : List (Int × List Int)) :
    Nat → Int → Option NodeData
  | 0, _ => none
  | fuel + 1, i =>
    if 0 ≤ i ∧ i.toNat < ids.length then
      some (.mk (ids.getD i.toNat "") (mats.getD i.toNat mat4Identity) []
        ((mapChildFind childMap i).map (fun c => boneTree ids mats childMap fuel c)))
    else none

/-- `Bundle3D::loadNodes`: the legacy versions ("0.1"/"1.2"/"0.2") reconstruct
the node tree from the skin data — inserting a placeholder node when the skin
load fails — and every branch of the function reports success. -/
def loadNodes (st : Bundle3D) (nodedatas : NodeDatas) : Bool × NodeDatas :=
  if st.version = "0.1" ∨ st.version = "1.2" ∨ st.version = "0.2" then
    let (ok, skinData) := loadSkinData st
    if ¬ ok then
      let node : NodeData := .mk "" mat4Identity [{ materialId := "", subMeshId := "" }] []
      (true, { nodedatas with nodes := nodedatas.nodes ++ [some node] })
    else
      let ids := skinData.skinBoneNames ++ skinData.nodeBoneNames
      let mats := skinData.skinBoneOriginMatrices ++ skinData.nodeBoneOriginMatrices
      let root := boneTree ids mats skinData.boneChild (ids.length + 1) skinData.rootBoneIndex
      let node : NodeData := .mk "" mat4Identity
        [{ materialId := "", subMeshId := "",
           bones := skinData.skinBoneNames,
           invBindPose := skinData.inverseBindPoseMatrices }] []
      let nd1 := { nodedatas with skeleton := nodedatas.skeleton ++ [root] }
      (true, { nd1 with nodes := nd1.nodes ++ [some node] })
  else
    if st.isBinary then (true, (loadNodesBinary st nodedatas).2)
    else (true, (loadNodesJson st nodedatas).2)

end Bundle3D

namespace Bundle3D

/-- The id-filter scan of `loadAnimationDataJson`: every matching entry
overwrites the selected index (there is no early exit in the source's loop).
A clip entry whose "id" is missing or not a string makes the reference
implementation assert; such entries are modelled as non-matching. -/
def animScan (id : String) : List JVal → Int → Nat → Int
  | [], acc, _ => acc
  | e :: rest, acc, i =>
    let acc := if jGetStr (jMember e "id") = some id then (i : Int) else acc
    animScan id rest acc (i + 1)

/-- One keyframe of the JSON animation loader: the translation, rotation and
scale channels are appended in source order when their member is present. -/
def animKeyframe (boneName : String) (kf : JVal) (ad : Animation3DData) : Option Animation3DData :=
  match
    (if jHas kf "translation" then
      match jArr (jMember kf "translation"), jGetFloat (jMember kf "keytime") with
      | some tr, some keytime =>
        match jGetFloat (tr.get? 0), jGetFloat (tr.get? 1), jGetFloat (tr.get? 2) with
        | some x, some y, some z =>
          some { ad with translationKeys := mapPush ad.translationKeys boneName ⟨keytime, x, y, z⟩ }
        | _, _, _ => none
      | _, _ => none
    else some ad) with
  | none => none
  | some ad1 =>
    match
      (if jHas kf "rotation" then
        match jArr (jMember kf "rotation"), jGetFloat (jMember kf "keytime") with
        | some rot, some keytime =>
          match jGetFloat (rot.get? 0), jGetFloat (rot.get? 1), jGetFloat (rot.get? 2), jGetFloat (rot.get? 3) with
          | some x, some y, some z, some w =>
            some { ad1 with rotationKeys := mapPush ad1.rotationKeys boneName ⟨keytime, x, y, z, w⟩ }
          | _, _, _, _ => none
        | _, _ => none
      else some ad1) with
    | none => none
    | some ad2 =>
      if jHas kf "scale" then
        match jArr (jMember kf "scale"), jGetFloat (jMember kf "keytime") with
        | some sc, some keytime =>
          match jGetFloat (sc.get? 0), jGetFloat (sc.get? 1), jGetFloat (sc.get? 2) with
          | some x, some y, some z =>
            some { ad2 with scaleKeys := mapPush ad2.scaleKeys boneName ⟨keytime, x, y, z⟩ }
          | _, _, _ => none
        | _, _ => none
      else some ad2

/-- The keyframe fold for one bone. -/
def animKeyframes (boneName : String) : List JVal → Animation3DData → Option Animation3DData
  | [], ad => some ad
  | kf :: rest, ad =>
    match animKeyframe boneName kf ad with
    | none => none
    | some ad1 => animKeyframes boneName rest ad1

/-- The per-bone fold of `loadAnimationDataJson`.  A bone with a "keyframes"
member gets all three of its channel map entries materialised by the
`reserve` calls even when no keyframe is ultimately appended. -/
def animBones : List JVal → Animation3DData → Option Animation3DData
  | [], ad => some ad
  | bone :: rest, ad =>
    match jGetStr (jMember bone "boneId") with
    | none => none
    | some boneName =>
      if jHas bone "keyframes" then
        match jArr (jMember bone "keyframes") with
        | none => none
        | some kfs =>
          let ad1 := { ad with
            rotationKeys := mapTouch ad.rotationKeys boneName,
            scaleKeys := mapTouch ad.scaleKeys boneName,
            translationKeys := mapTouch ad.translationKeys boneName }
          match animKeyframes boneName kfs ad1 with
          | none => none
          | some ad2 => animBones rest ad2
      else animBones rest ad

/-- Extraction of one selected clip entry: total duration from "length", then
the per-bone channel fold over "bones". -/
def animExtract (entry : JVal) (ad0 : Animation3DData) : Bool × Animation3DData :=
  match jGetFloat (jMember entry "length") with
  | none => (false, ad0)
  | some len =>
    let ad1 := { ad0 with totalTime := len }
    match jArr (jMember entry "bones") with
    | none => (false, ad1)
    | some bones =>
      match animBones bones ad1 with
      | none => (false, ad1)
      | some ad2 => (true, ad2)

/-- `Bundle3D::loadAnimationDataJson`: version-keyed top-level array name
("animation" for the legacy versions, "animations" otherwise), id selection by
the overwrite scan (no match with a non-empty filter is a hard failure; an
empty filter selects entry 0), then the clip extraction. -/
def loadAnimationDataJson (st : Bundle3D) (id : String) (ad0 : Animation3DData) : Bool × Animation3DData :=
  let anim := if st.version = "1.2" ∨ st.version = "0.2" then "animation" else "animations"
  match st.jsonDoc with
  | none => (false, ad0)
  | some doc =>
    if ¬ jHas doc anim then (false, ad0)
    else
      match jArr (jMember doc anim) with
      | none => (false, ad0)
      | some arr =>
        if arr.length = 0 then (false, ad0)
        else
          let theIndex : Int := if id ≠ "" then animScan id arr (-1) 0 else 0
          if theIndex < 0 then (false, ad0)
          else
            match arr.get? theIndex.toNat with
            | none => (false, ad0)
            | some entry => animExtract entry ad0

end Bundle3D

open Bundle3D

/-! Concrete fixtures used by witnesses and counterexamples. -/

/-- A minimal valid binary bundle: `C3B\0`, version bytes (0,5), an empty
reference table. -/
def c3bMin : List Nat := [67, 51, 66, 0, 0, 5, 0, 0, 0, 0]

/-- An environment exposing exactly one binary bundle file, "m.c3b". -/
def envB : FileEnv :=
  { getExtension := fun p => if p = "m.c3b" then ".c3b" else ".xxx"
    readData := fun p => if p = "m.c3b" then some c3bMin else none
    readText := fun _ => ""
    parseJson := fun _ => none }

/-- C9: `loadNodes` reports success on every input state — the node-section
loaders' results are ignored, and both branches of the legacy skin path
(placeholder node on failure, bone tree on success) return true. -/
theorem loadNodes_always_true (st : Bundle3D) (nd : NodeDatas) :
    (Bundle3D.loadNodes st nd).1 = true := by
  unfold Bundle3D.loadNodes
  by_cases h : (st.version = "0.1" ∨ st.version = "1.2" ∨ st.version = "0.2")
  · rw [if_pos h]
    rcases hsk : Bundle3D.loadSkinData st with ⟨ok, sd⟩
    cases ok <;> simp
  · rw [if_neg h]
    by_cases hb : st.isBinary <;> simp [hb]

/-- C3: a second `load` with the path of a previous successful `load` is a
no-op success — it returns true, leaves the bundle state unchanged, and never
reaches format detection, clearing or a format loader. -/
theorem load_same_path_noop (env : FileEnv) (st st' : Bundle3D) (p : String)
    (h : Bundle3D.load env st p = (true, st')) :
    Bundle3D.load env st' p = (true, st') ∧ Bundle3D.loadPerformsParse st' p = false := by
  have hp : ¬ (p = "") := by
    intro hp
    rw [hp] at h
    simp [Bundle3D.load] at h
  have hpath : st'.path = p := by
    unfold Bundle3D.load at h
    rw [if_neg hp] at h
    by_cases hsp : st.path = p
    · rw [if_pos hsp] at h
      have : st = st' := congrArg Prod.snd h
      rw [← this, hsp]
    · rw [if_neg hsp] at h
      by_cases hd : (Bundle3D.loadDispatch env (Bundle3D.getModelRelativePath st p) p).1
      · simp only [hd, if_true] at h
        have : _ = st' := congrArg Prod.snd h
        rw [← this]
      · simp only [hd, if_false, Bool.false_eq_true] at h
        simp at h
  refine ⟨?_, ?_⟩
  · unfold Bundle3D.load
    rw [if_neg hp, if_pos hpath]
  · simp [Bundle3D.loadPerformsParse, hpath, hp]

/-- C3 witness: loading the minimal bundle twice through `envB`. -/
theorem load_same_path_noop_witness :
    Bundle3D.load envB ((Bundle3D.load envB {} "m.c3b").2) "m.c3b" =
      (true, (Bundle3D.load envB {} "m.c3b").2) ∧
    Bundle3D.loadPerformsParse ((Bundle3D.load envB {} "m.c3b").2) "m.c3b" = false :=
  load_same_path_noop envB {} ((Bundle3D.load envB {} "m.c3b").2) "m.c3b" (by rfl)

/-- C10 counterexample: after a successful load of "m.c3b", a `load` with
the empty path fails but leaves the stored path untouched — the early
empty-path return never reaches the path-reset assignment, so "whenever load
fails the stored path is reset" is false as stated. -/
theorem load_empty_path_keeps_stored_path_counterex :
    (Bundle3D.load envB ((Bundle3D.load envB {} "m.c3b").2) "").1 = false ∧
    (Bundle3D.load envB ((Bundle3D.load envB {} "m.c3b").2) "").2.path = "m.c3b" ∧
    "m.c3b" ≠ "" :=
  ⟨rfl, rfl, by decide⟩

/-- C10 (amended): `load` fails on the empty path with the state untouched;
for every non-empty path a failing `load` resets the stored path to the empty
string, so retrying a previously failed non-empty path reaches the full
re-parse instead of the cached no-op. -/
theorem load_failure_path_reset (env : FileEnv) (st : Bundle3D) (p : String) :
    Bundle3D.load env st "" = (false, st) ∧
    (p ≠ "" → (Bundle3D.load env st p).1 = false →
      ((Bundle3D.load env st p).2.path = "" ∧
       Bundle3D.loadPerformsParse (Bundle3D.load env st p).2 p = true)) := by
  refine ⟨by simp [Bundle3D.load], ?_⟩
  intro hp hf
  unfold Bundle3D.load at hf ⊢
  rw [if_neg hp] at hf ⊢
  by_cases hsp : st.path = p
  · rw [if_pos hsp] at hf
    simp at hf
  · rw [if_neg hsp] at hf ⊢
    by_cases hd : (Bundle3D.loadDispatch env (Bundle3D.getModelRelativePath st p) p).1
    · simp only [hd, if_true] at hf
      simp at hf
    · rw [if_neg hd] at hf ⊢
      have hne : ¬ ("" = p) := fun hc => hp hc.symm
      refine ⟨rfl, ?_⟩
      simp [Bundle3D.loadPerformsParse, hp, hne]

/-- C10 witness: a path the environment cannot resolve fails and resets the
stored path, enabling a later full re-parse. -/
theorem load_failure_path_reset_witness :
    (Bundle3D.load envB {} "x.c3b").2.path = "" ∧
    Bundle3D.loadPerformsParse (Bundle3D.load envB {} "x.c3b").2 "x.c3b" = true :=
  (load_failure_path_reset envB {} "x.c3b").2 (by decide) (by rfl)

/-- C1: given a successful seek to the MESH section and a successful mesh
count read, any failure of `loadMeshDatasBinary` (in particular a short read
anywhere inside the mesh list) releases every partially built mesh entry and
returns failure with an empty aggregate. -/
theorem loadMeshDatasBinary_truncation_clears (st : Bundle3D) (m0 : MeshDatas)
    (ref : Reference) (r : BundleReader) (n : Nat) (r1 : BundleReader)
    (hseek : Bundle3D.seekToFirstType st Bundle3D.BUNDLE_TYPE_MESH "" = some (ref, r))
    (hsize : read4 r = some (n, r1))
    (hfail : (Bundle3D.loadMeshDatasBinary st m0).1 = false) :
    Bundle3D.loadMeshDatasBinary st m0 = (false, ⟨[]⟩) := by
  unfold Bundle3D.loadMeshDatasBinary at hfail ⊢
  simp only [hseek] at hfail ⊢
  simp only [hsize] at hfail ⊢
  cases hml : Bundle3D.meshLoop st.version n r1 m0.meshDatas with
  | none => simp only [hml]
  | some p => simp only [hml] at hfail; exact absurd hfail (by simp)

/-- A bundle state whose MESH payload is truncated right after the mesh
count. -/
def stC1 : Bundle3D :=
  { version := "0.5", referenceCount := 1, references := [⟨"m", 34, 0⟩],
    reader := ⟨[1, 0, 0, 0], 0⟩ }

/-- C1 witness: the truncated stream aborts the mesh list and clears a
non-empty incoming aggregate. -/
theorem loadMeshDatasBinary_truncation_clears_witness :
    Bundle3D.loadMeshDatasBinary stC1 ⟨[{ vertex := [5] }]⟩ = (false, ⟨[]⟩) :=
  loadMeshDatasBinary_truncation_clears stC1 ⟨[{ vertex := [5] }]⟩
    ⟨"m", 34, 0⟩ ⟨[1, 0, 0, 0], 0⟩ 1 ⟨[1, 0, 0, 0], 4⟩ (by rfl) (by rfl) (by rfl)

/-- Two-byte little-endian values are below 2^16. -/
theorem leWord_pair_lt (b0 b1 : Nat) : leWord [b0, b1] < 65536 := by
  simp only [leWord]
  have h0 : b0 % 256 < 256 := Nat.mod_lt _ (by omega)
  have h1 : b1 % 256 < 256 := Nat.mod_lt _ (by omega)
  omega

/-- Every value produced by the 16-bit grouping is below 2^16. -/
theorem groupPairs_lt : ∀ bs : List Nat, ∀ v ∈ groupPairs bs, v < 65536
  | [] => by decide
  | [b] => by
    intro v hv
    rw [show groupPairs [b] = [] from rfl] at hv
    cases hv
  | b0 :: b1 :: rest => by
    intro v hv
    simp only [groupPairs, List.mem_cons] at hv
    rcases hv with h | h
    · rw [h]; exact leWord_pair_lt b0 b1
    · exact groupPairs_lt rest v h

/-- Every index delivered by a 16-bit element read is below 2^16. -/
theorem read2n_lt (r : BundleReader) (c : Nat) (l : List Nat) (r' : BundleReader)
    (h : read2n r c = some (l, r')) : ∀ v ∈ l, v < 65536 := by
  unfold read2n at h
  cases hb : readBytes r (2 * c) with
  | none => rw [hb] at h; simp at h
  | some p =>
    rw [hb] at h
    simp only [Option.map] at h
    cases h
    exact groupPairs_lt p.1

/-- All index values stored in a mesh list are below 2^16. -/
def meshIndicesBounded (l : List MeshData) : Prop :=
  ∀ md ∈ l, ∀ arr ∈ md.subMeshIndices, ∀ v ∈ arr, v < 65536

/-- The sub-mesh part loop only appends index arrays read as 16-bit values. -/
theorem partLoop_bounded (version : String) :
    ∀ (k : Nat) (r : BundleReader) (md : MeshData),
      (∀ arr ∈ md.subMeshIndices, ∀ v ∈ arr, v < 65536) →
      ∀ md' r', Bundle3D.partLoop version k r md = some (md', r') →
      ∀ arr ∈ md'.subMeshIndices, ∀ v ∈ arr, v < 65536
  | 0, r, md => by
    intro hmd md' r' h
    unfold Bundle3D.partLoop at h
    cases h
    exact hmd
  | k + 1, r, md => by
    intro hmd md' r' h
    unfold Bundle3D.partLoop at h
    dsimp only at h
    cases hc : read4 (readString r).2 with
    | none => rw [hc] at h; simp at h
    | some pc =>
      rw [hc] at h
      rcases pc with ⟨cnt, r2⟩
      dsimp only at h
      cases hi : read2n r2 cnt with
      | none => rw [hi] at h; simp at h
      | some pi' =>
        rw [hi] at h
        rcases pi' with ⟨indices, r3⟩
        dsimp only at h
        have hbound : ∀ arr ∈ (md.subMeshIndices ++ [indices]), ∀ v ∈ arr, v < 65536 := by
          intro arr harr v hvv
          rcases List.mem_append.mp harr with ha | ha
          · exact hmd arr ha v hvv
          · rcases List.mem_singleton.mp ha with rfl
            exact read2n_lt r2 cnt _ r3 hi v hvv
        by_cases hver : (version ≠ "0.3" ∧ version ≠ "0.4" ∧ version ≠ "0.5")
        · rw [if_pos hver] at h
          cases ha : read4n r3 6 with
          | none => rw [ha] at h; simp at h
          | some pa =>
            rw [ha] at h
            rcases pa with ⟨aabb, r4⟩
            dsimp only at h
            exact partLoop_bounded version k r4 _ hbound md' r' h
        · rw [if_neg hver] at h
          exact partLoop_bounded version k r3 _ hbound md' r' h

/-- The mesh loop preserves boundedness of all stored index values. -/
theorem meshLoop_bounded (version : String) :
    ∀ (n : Nat) (r : BundleReader) (acc : List MeshData),
      meshIndicesBounded acc →
      ∀ lst r', Bundle3D.meshLoop version n r acc = some (lst, r') →
      meshIndicesBounded lst
  | 0, r, acc => by
    intro hacc lst r' h
    unfold Bundle3D.meshLoop at h
    cases h
    exact hacc
  | n + 1, r, acc => by
    intro hacc lst r' h
    unfold Bundle3D.meshLoop at h
    cases h4 : read4 r with
    | none => rw [h4] at h; simp at h
    | some pa =>
      rw [h4] at h
      rcases pa with ⟨attribSize, r1⟩
      dsimp only at h
      by_cases hz : attribSize < 1
      · rw [if_pos hz] at h; simp at h
      · rw [if_neg hz] at h
        cases hal : Bundle3D.attribLoop attribSize r1 [] with
        | none => rw [hal] at h; simp at h
        | some pal =>
          rw [hal] at h
          rcases pal with ⟨attribs, r2⟩
          dsimp only at h
          cases hv : read4 r2 with
          | none => rw [hv] at h; simp at h
          | some pv =>
            rw [hv] at h
            rcases pv with ⟨vsz, r3⟩
            dsimp only at h
            by_cases hvz : vsz = 0
            · rw [if_pos hvz] at h; simp at h
            · rw [if_neg hvz] at h
              cases hw : read4n r3 vsz with
              | none => rw [hw] at h; simp at h
              | some pw =>
                rw [hw] at h
                rcases pw with ⟨vwords, r4⟩
                dsimp only at h
                rcases hpc : readOr r4 1 with ⟨mpc, r5⟩
                rw [hpc] at h
                dsimp only at h
                cases hpl : Bundle3D.partLoop version mpc r5
                    { attribCount := attribSize, attribs := attribs,
                      vertex := wordsToMat vwords } with
                | none => rw [hpl] at h; simp at h
                | some pm =>
                  rw [hpl] at h
                  rcases pm with ⟨md1, r6⟩
                  dsimp only at h
                  have hb1 : ∀ arr ∈ md1.subMeshIndices, ∀ v ∈ arr, v < 65536 :=
                    partLoop_bounded version mpc r5 _ (by simp) md1 r6 hpl
                  refine meshLoop_bounded version n r6 (acc ++ [md1]) ?_ lst r' h
                  intro md hmdm
                  rcases List.mem_append.mp hmdm with hm | hm
                  · exact hacc md hm
                  · rcases List.mem_singleton.mp hm with rfl
                    exact hb1

/-- C2 (amended): every index value a successful `loadMeshDatasBinary` stores
is exactly the 16-bit value read from the stream — in particular below 2^16 —
but the loader never validates indices against the mesh's vertex count. -/
theorem loadMeshDatasBinary_indices_are_16bit (st : Bundle3D)
    (hok : (Bundle3D.loadMeshDatasBinary st ⟨[]⟩).1 = true) :
    meshIndicesBounded (Bundle3D.loadMeshDatasBinary st ⟨[]⟩).2.meshDatas := by
  unfold Bundle3D.loadMeshDatasBinary at hok ⊢
  cases hs : Bundle3D.seekToFirstType st Bundle3D.BUNDLE_TYPE_MESH "" with
  | none => rw [hs] at hok; simp at hok
  | some pr =>
    rcases pr with ⟨ref, r⟩
    rw [hs] at hok
    dsimp only at hok ⊢
    cases h4 : read4 r with
    | none => rw [h4] at hok; simp at hok
    | some pn =>
      rcases pn with ⟨n, r1⟩
      rw [h4] at hok
      dsimp only at hok ⊢
      cases hml : Bundle3D.meshLoop st.version n r1 ([] : List MeshData) with
      | none => rw [hml] at hok; simp at hok
      | some pl =>
        rcases pl with ⟨lst, r2⟩
        rw [hml] at hok
        dsimp only
        exact meshLoop_bounded st.version n r1 [] (by intro md hm; simp at hm) lst r2 hml

/-- A complete single-mesh binary payload for version "0.5": one FLOAT3
position attribute, one vertex (3 floats), one sub-mesh part "a" with the
single index value 7. -/
def meshPayload : List Nat :=
  [1, 0, 0, 0] ++
  [1, 0, 0, 0] ++
  [3, 0, 0, 0] ++
  [8, 0, 0, 0, 71, 76, 95, 70, 76, 79, 65, 84] ++
  [22, 0, 0, 0, 86, 69, 82, 84, 69, 88, 95, 65, 84, 84, 82, 73, 66, 95, 80, 79, 83, 73, 84, 73,
   79, 78] ++
  [3, 0, 0, 0] ++
  [0, 0, 0, 0, 0, 0, 0, 0, 0, 0, 0, 0] ++
  [1, 0, 0, 0] ++
  [1, 0, 0, 0, 97] ++
  [1, 0, 0, 0] ++
  [7, 0]

/-- A bundle state holding `meshPayload` behind a one-entry reference table. -/
def stC2 : Bundle3D :=
  { version := "0.5", referenceCount := 1, references := [⟨"m", 34, 0⟩],
    reader := ⟨meshPayload, 0⟩ }

/-- C2 counterexample: `stC2` loads successfully, yet its mesh stores the
index value 7 while the mesh holds a single vertex — the loader performs no
range validation, so "every index value < vertex count" fails on a valid
(loadable) bundle. -/
theorem loadMeshDatasBinary_out_of_range_index_counterex :
    (Bundle3D.loadMeshDatasBinary stC2 ⟨[]⟩).1 = true ∧
    ¬ (∀ md ∈ (Bundle3D.loadMeshDatasBinary stC2 ⟨[]⟩).2.meshDatas,
        ∀ arr ∈ md.subMeshIndices, ∀ v ∈ arr, v < meshVertexCount md) := by
  refine ⟨by rfl, ?_⟩
  decide

/-- C2 witness: the amended bound holds on the concrete loadable bundle. -/
theorem loadMeshDatasBinary_indices_are_16bit_witness :
    (Bundle3D.loadMeshDatasBinary stC2 ⟨[]⟩).1 = true ∧
    meshIndicesBounded (Bundle3D.loadMeshDatasBinary stC2 ⟨[]⟩).2.meshDatas :=
  ⟨by rfl, loadMeshDatasBinary_indices_are_16bit stC2 (by rfl)⟩

/-- The version-0.2 material loop can only report success: there is no
failure path inside it (an empty path returns success immediately). -/
theorem matLoop02_true (mp : String) : ∀ (n : Nat) (r : BundleReader) (acc : List NMaterialData),
    (Bundle3D.matLoop02 mp n r acc).1 = true
  | 0, r, acc => rfl
  | n + 1, r, acc => by
    unfold Bundle3D.matLoop02
    dsimp only
    by_cases he : (readString r).1 = ""
    · rw [if_pos he]
    · rw [if_neg he]
      exact matLoop02_true mp n _ _

/-- An empty texture path stops the version-0.2 material loop with success and
no further entries. -/
theorem matLoop02_truncates (mp : String) (n : Nat) (r : BundleReader) (acc : List NMaterialData)
    (he : (readString r).1 = "") : Bundle3D.matLoop02 mp (n + 1) r acc = (true, acc) := by
  unfold Bundle3D.matLoop02
  dsimp only
  rw [if_pos he]

/-- A texture record whose path string is empty is a hard failure (whatever
the texture id was). -/
theorem texRecord_empty_path (mp : String) (r : BundleReader)
    (hpath : (readString (readString r).2).1 = "") :
    Bundle3D.texRecord mp r = none := by
  unfold Bundle3D.texRecord
  dsimp only
  by_cases hid : (readString r).1 = ""
  · rw [if_pos hid]
  · rw [if_neg hid, if_pos hpath]

/-- The current-format texture loop fails outright when the texture path it
reads is empty (whatever the texture id was). -/
theorem texLoop_empty_path (mp : String) (j : Nat) (r : BundleReader) (acc : List NTextureData)
    (hpath : (readString (readString r).2).1 = "") :
    Bundle3D.texLoop mp (j + 1) r acc = none := by
  unfold Bundle3D.texLoop
  rw [texRecord_empty_path mp r hpath]

/-- C6: the two material loaders disagree on an empty texture path mid-list.
The "0.2" loader always reports success once the section seek lands (first
conjunct) and an empty path merely truncates the list (second conjunct),
while the current-format loader reports failure as soon as a texture record's
path string is empty (third conjunct). -/
theorem material_loader_empty_path_quirk :
    (∀ (st : Bundle3D) (md : MaterialDatas) (ref : Reference) (r : BundleReader),
      Bundle3D.seekToFirstType st Bundle3D.BUNDLE_TYPE_MATERIAL "" = some (ref, r) →
      (Bundle3D.loadMaterialsBinary_0_2 st md).1 = true) ∧
    (∀ (mp : String) (n : Nat) (r : BundleReader) (acc : List NMaterialData),
      (readString r).1 = "" → Bundle3D.matLoop02 mp (n + 1) r acc = (true, acc)) ∧
    (∀ (st : Bundle3D) (md : MaterialDatas) (ref : Reference) (r : BundleReader)
       (num : Nat) (r1 : BundleReader) (mid : String) (r2 : BundleReader)
       (tn : Nat) (r3 : BundleReader),
      Bundle3D.seekToFirstType st Bundle3D.BUNDLE_TYPE_MATERIAL "" = some (ref, r) →
      readOr r 1 = (num, r1) → 0 < num →
      readString r1 = (mid, r2) →
      readOr (skipBytes r2 56) 1 = (tn, r3) → 0 < tn →
      (readString (readString r3).2).1 = "" →
      (Bundle3D.loadMaterialsBinary st md).1 = false) := by
  refine ⟨?_, ?_, ?_⟩
  · intro st md ref r hseek
    unfold Bundle3D.loadMaterialsBinary_0_2
    rw [hseek]
    dsimp only
    exact matLoop02_true st.modelPath _ _ _
  · exact matLoop02_truncates
  · intro st md ref r num r1 mid r2 tn r3 hseek hnum hpos hid htn htpos hpath
    unfold Bundle3D.loadMaterialsBinary
    rw [hseek]
    dsimp only
    rw [hnum]
    dsimp only
    cases num with
    | zero => omega
    | succ k =>
      unfold Bundle3D.matLoop
      dsimp only
      rw [hid]
      dsimp only
      rw [htn]
      dsimp only
      cases tn with
      | zero => omega
      | succ j =>
        rw [texLoop_empty_path st.modelPath j r3 [] hpath]

/-- A version-0.2 material payload: two entries announced, first path "t",
second path empty — the quirk truncates the list with success. -/
def stC6 : Bundle3D :=
  { version := "0.2", modelPath := "d/", referenceCount := 1, references := [⟨"mt", 16, 0⟩],
    reader := ⟨[2, 0, 0, 0] ++ [1, 0, 0, 0, 116] ++ [0, 0, 0, 0], 0⟩ }

/-- A current-format material payload whose single texture has id "x" and an
empty path. -/
def stC6b : Bundle3D :=
  { version := "0.7", modelPath := "d/", referenceCount := 1, references := [⟨"mt", 16, 0⟩],
    reader := ⟨[1, 0, 0, 0] ++ [1, 0, 0, 0, 105] ++ List.replicate 56 0 ++ [1, 0, 0, 0] ++
               [1, 0, 0, 0, 120] ++ [0, 0, 0, 0], 0⟩ }

/-- C6 witness: on the concrete streams the 0.2 loader succeeds (with the
truncated single-entry list) and the current-format loader fails. -/
theorem material_loader_empty_path_quirk_witness :
    (Bundle3D.loadMaterialsBinary_0_2 stC6 ⟨[]⟩).1 = true ∧
    (Bundle3D.loadMaterialsBinary stC6b ⟨[]⟩).1 = false ∧
    ((Bundle3D.loadMaterialsBinary_0_2 stC6 ⟨[]⟩).2.materials.map
      (fun m => m.textures.map (fun t => t.filename))) = [["d/t"]] :=
  ⟨material_loader_empty_path_quirk.1 stC6 ⟨[]⟩ ⟨"mt", 16, 0⟩ ⟨stC6.reader.buffer, 0⟩ (by decide),
   material_loader_empty_path_quirk.2.2 stC6b ⟨[]⟩ ⟨"mt", 16, 0⟩ ⟨stC6b.reader.buffer, 0⟩
     1 ⟨stC6b.reader.buffer, 4⟩ "i" ⟨stC6b.reader.buffer, 9⟩
     1 ⟨stC6b.reader.buffer, 69⟩
     (by decide) (by decide) (by decide) (by decide) (by decide) (by decide) (by decide),
   by decide⟩

/-- The hierarchy-link loop never changes the designated root bone index. -/
theorem linkLoop_preserves_root :
    ∀ (n : Nat) (r : BundleReader) (sd sd' : SkinData) (r' : BundleReader),
      Bundle3D.linkLoop n r sd = some (sd', r') → sd'.rootBoneIndex = sd.rootBoneIndex
  | 0, r, sd => by
    intro sd' r' h
    unfold Bundle3D.linkLoop at h
    cases h
    rfl
  | n + 1, r, sd => by
    intro sd' r' h
    unfold Bundle3D.linkLoop at h
    dsimp only at h
    cases hm : readMatrix (readString (readString r).2).2 with
    | none => rw [hm] at h; simp at h
    | some pm =>
      rw [hm] at h
      rcases pm with ⟨mw, r3⟩
      dsimp only at h
      by_cases h1 : getSkinBoneNameIndex sd (readString r).1 < 0
      · rw [if_pos h1] at h
        dsimp only at h
        by_cases h2 : getSkinBoneNameIndex
            { addNodeBoneNames sd (readString r).1 with
              nodeBoneOriginMatrices :=
                (addNodeBoneNames sd (readString r).1).nodeBoneOriginMatrices ++
                  [wordsToMat mw] } (readString (readString r).2).1 < 0
        · rw [if_pos h2] at h
          have := linkLoop_preserves_root n r3 _ sd' r' h
          rw [this]
          unfold addNodeBoneNames
          split <;> split <;> rfl
        · rw [if_neg h2] at h
          have := linkLoop_preserves_root n r3 _ sd' r' h
          rw [this]
          unfold addNodeBoneNames
          split <;> rfl
      · rw [if_neg h1] at h
        dsimp only at h
        by_cases h2 : getSkinBoneNameIndex
            (setSkinOrigin sd (getSkinBoneNameIndex sd (readString r).1)
              (wordsToMat mw)) (readString (readString r).2).1 < 0
        · rw [if_pos h2] at h
          have := linkLoop_preserves_root n r3 _ sd' r' h
          rw [this]
          unfold addNodeBoneNames setSkinOrigin
          split <;> rfl
        · rw [if_neg h2] at h
          have := linkLoop_preserves_root n r3 _ sd' r' h
          rw [this]
          rfl

/-- Root index designated by the root record over a single-skin-bone list. -/
theorem skinRootRecord_index (sd2 : SkinData) (boneA n : String) (m : List Rat)
    (hsb : sd2.skinBoneNames = [boneA]) (hnb : sd2.nodeBoneNames = []) :
    (Bundle3D.skinRootRecord sd2 n m).2 = (if n = boneA then 0 else 1) := by
  unfold Bundle3D.skinRootRecord
  by_cases hn : n = boneA
  · subst hn
    simp [getSkinBoneNameIndex, nameIndex, hsb]
  · have hAn : ¬ (boneA = n) := fun h => hn h.symm
    simp only [getSkinBoneNameIndex, getBoneNameIndex, addNodeBoneNames, nameIndex, hsb, hnb,
      if_neg hAn, List.not_mem_nil, if_false, List.nil_append, List.append_nil]
    norm_num
    simp [nameIndex, hAn, hn]

/-- C7 (amended): a skin section with bone count zero always fails; with bone
count one and well-formed remaining records the load can succeed (for
instance with an empty link list), and the designated root bone index is the
combined-list index of the name in the root record — the single skin bone
(index 0) exactly when the root record names it, a freshly added node bone
(index 1) otherwise. -/
theorem loadSkinDataBinary_bone_count_boundary :
    (∀ (st : Bundle3D) (sd0 : SkinData) (ref : Reference) (r : BundleReader)
       (bn : String) (r1 : BundleReader) (bs0 : List Nat) (r2 r3 : BundleReader),
      Bundle3D.seekToFirstType st Bundle3D.BUNDLE_TYPE_MESHSKIN "" = some (ref, r) →
      readString r = (bn, r1) →
      readMatrix r1 = some (bs0, r2) →
      read4 r2 = some (0, r3) →
      Bundle3D.loadSkinDataBinary st sd0 = (false, sd0)) ∧
    (∀ (st : Bundle3D) (ref : Reference) (r : BundleReader)
       (bn : String) (r1 : BundleReader) (bs0 : List Nat) (r2 r3 : BundleReader)
       (boneA : String) (r4 : BundleReader) (inv : List Nat) (r5 : BundleReader)
       (rootName : String) (r6 : BundleReader) (bs1 : List Nat) (r7 : BundleReader)
       (L : Nat) (r8 : BundleReader),
      Bundle3D.seekToFirstType st Bundle3D.BUNDLE_TYPE_MESHSKIN "" = some (ref, r) →
      readString r = (bn, r1) →
      readMatrix r1 = some (bs0, r2) →
      read4 r2 = some (1, r3) →
      readString r3 = (boneA, r4) →
      readMatrix r4 = some (inv, r5) →
      readString r5 = (rootName, r6) →
      readMatrix r6 = some (bs1, r7) →
      readOr r7 0 = (L, r8) →
      (((Bundle3D.loadSkinDataBinary st {}).1 = true →
        (Bundle3D.loadSkinDataBinary st {}).2.rootBoneIndex =
          (if rootName = boneA then 0 else 1)) ∧
       (L = 0 → (Bundle3D.loadSkinDataBinary st {}).1 = true))) := by
  constructor
  · intro st sd0 ref r bn r1 bs0 r2 r3 hseek hn0 hm0 hnum
    unfold Bundle3D.loadSkinDataBinary
    rw [hseek]
    dsimp only
    rw [hn0]
    dsimp only
    rw [hm0]
    dsimp only
    rw [hnum]
    dsimp only
    rw [if_pos (rfl : (0 : Nat) = 0)]
  · intro st ref r bn r1 bs0 r2 r3 boneA r4 inv r5 rootName r6 bs1 r7 L r8
    intro hseek hn0 hm0 hnum hb hm hroot hrm hL
    have hchain : Bundle3D.loadSkinDataBinary st {} =
        (match Bundle3D.linkLoop L r8
            (Bundle3D.withRoot (Bundle3D.skinRootRecord
              { skinBoneNames := [boneA], inverseBindPoseMatrices := [wordsToMat inv],
                skinBoneOriginMatrices := resizeWithDefault [] 1 } rootName
              (wordsToMat bs1))) with
          | none => (false, ({} : SkinData))
          | some (sd5, _) => (true, sd5)) := by
      unfold Bundle3D.loadSkinDataBinary
      rw [hseek]
      dsimp only
      rw [hn0]
      dsimp only
      rw [hm0]
      dsimp only
      rw [hnum]
      dsimp only
      rw [if_neg (by decide : ¬ ((1 : Nat) = 0))]
      unfold Bundle3D.skinBoneLoop
      dsimp only
      rw [hb]
      dsimp only
      rw [hm]
      dsimp only
      unfold Bundle3D.skinBoneLoop
      dsimp only
      rw [hroot]
      dsimp only
      rw [hrm]
      dsimp only
      rw [hL]
      dsimp only
      rfl
    rw [hchain]
    constructor
    · intro hok
      rcases hll : Bundle3D.linkLoop L r8
          (Bundle3D.withRoot (Bundle3D.skinRootRecord
            { skinBoneNames := [boneA], inverseBindPoseMatrices := [wordsToMat inv],
              skinBoneOriginMatrices := resizeWithDefault [] 1 } rootName
            (wordsToMat bs1))) with _ | ⟨sd5, r9⟩
      · rw [hll] at hok
        simp at hok
      · rw [hll] at hok
        dsimp only at hok ⊢
        rw [linkLoop_preserves_root L r8 _ sd5 r9 hll]
        rw [show ∀ pr, (Bundle3D.withRoot pr).rootBoneIndex = pr.2 from fun _ => rfl]
        exact skinRootRecord_index _ boneA rootName (wordsToMat bs1) (by rfl) (by rfl)
    · intro hL0
      subst hL0
      rw [show Bundle3D.linkLoop 0 r8
          (Bundle3D.withRoot (Bundle3D.skinRootRecord
            { skinBoneNames := [boneA], inverseBindPoseMatrices := [wordsToMat inv],
              skinBoneOriginMatrices := resizeWithDefault [] 1 } rootName
            (wordsToMat bs1))) =
          some (Bundle3D.withRoot (Bundle3D.skinRootRecord
            { skinBoneNames := [boneA], inverseBindPoseMatrices := [wordsToMat inv],
              skinBoneOriginMatrices := resizeWithDefault [] 1 } rootName
            (wordsToMat bs1)), r8) from rfl]

/-- A binary skin payload with bone count 1, the single bone "A", and a root
record naming "B". -/
def skinPayloadB : List Nat :=
  [1, 0, 0, 0, 65] ++ List.replicate 64 0 ++
  [1, 0, 0, 0] ++
  [1, 0, 0, 0, 65] ++ List.replicate 64 0 ++
  [1, 0, 0, 0, 66] ++ List.replicate 64 0 ++
  [0, 0, 0, 0]

/-- The same payload with the root record naming the single bone "A". -/
def skinPayloadA : List Nat :=
  [1, 0, 0, 0, 65] ++ List.replicate 64 0 ++
  [1, 0, 0, 0] ++
  [1, 0, 0, 0, 65] ++ List.replicate 64 0 ++
  [1, 0, 0, 0, 65] ++ List.replicate 64 0 ++
  [0, 0, 0, 0]

/-- Skin bundle state over `skinPayloadB`. -/
def stC7 : Bundle3D :=
  { version := "0.7", referenceCount := 1, references := [⟨"s", 36, 0⟩],
    reader := ⟨skinPayloadB, 0⟩ }

/-- Skin bundle state over `skinPayloadA`. -/
def stC7A : Bundle3D :=
  { version := "0.7", referenceCount := 1, references := [⟨"s", 36, 0⟩],
    reader := ⟨skinPayloadA, 0⟩ }

/-- C7 counterexample: a skin section with bone count 1 whose root record
names "B" loads successfully, yet `rootBoneIndex` is 1 — the index of the
node bone "B" — not the single skin bone "A" at index 0, so "designates that
single bone as the root bone" is false as stated. -/
theorem loadSkinDataBinary_root_record_counterex :
    (Bundle3D.loadSkinDataBinary stC7 {}).1 = true ∧
    (Bundle3D.loadSkinDataBinary stC7 {}).2.skinBoneNames = ["A"] ∧
    (Bundle3D.loadSkinDataBinary stC7 {}).2.nodeBoneNames = ["B"] ∧
    (Bundle3D.loadSkinDataBinary stC7 {}).2.rootBoneIndex = 1 := by
  refine ⟨by decide, by decide, by decide, by decide⟩

/-- C7 witness: the amended statement applied to the concrete bone-count-1
stream whose root record names the single bone. -/
theorem loadSkinDataBinary_bone_count_boundary_witness :
    (Bundle3D.loadSkinDataBinary stC7A {}).1 = true ∧
    (Bundle3D.loadSkinDataBinary stC7A {}).2.rootBoneIndex =
      (if "A" = "A" then 0 else 1) := by
  have T := loadSkinDataBinary_bone_count_boundary.2 stC7A ⟨"s", 36, 0⟩ ⟨skinPayloadA, 0⟩
    "A" ⟨skinPayloadA, 5⟩ (List.replicate 16 0) ⟨skinPayloadA, 69⟩ ⟨skinPayloadA, 73⟩
    "A" ⟨skinPayloadA, 78⟩ (List.replicate 16 0) ⟨skinPayloadA, 142⟩
    "A" ⟨skinPayloadA, 147⟩ (List.replicate 16 0) ⟨skinPayloadA, 211⟩
    0 ⟨skinPayloadA, 215⟩
    (by decide) (by decide) (by decide) (by decide) (by decide) (by decide) (by decide)
    (by decide) (by decide)
  exact ⟨T.2 rfl, T.1 (T.2 rfl)⟩

/-- A node is skinned when some of its mesh-part bindings carries bones. -/
def nodeIsSkinned (nd : NodeData) : Bool :=
  nd.modelNodeDatas.any (fun m => !m.bones.isEmpty)

/-- Every JSON value has positive weight. -/
theorem jWeight_pos (v : JVal) : 1 ≤ jWeight v := by
  cases v <;> simp [jWeight]

/-- The bone fold appends exactly one name per bone entry. -/
theorem bonesFoldJ_length :
    ∀ (l : List JVal) (names : List String) (mats : List (List Rat))
      (ns : List String) (ms : List (List Rat)),
      Bundle3D.bonesFoldJ l names mats = some (ns, ms) → ns.length = names.length + l.length
  | [], names, mats => by
    intro ns ms h
    unfold Bundle3D.bonesFoldJ at h
    cases h
    simp
  | bone :: rest, names, mats => by
    intro ns ms h
    unfold Bundle3D.bonesFoldJ at h
    by_cases hh : jHas bone "node"
    · rw [if_neg (by simp [hh])] at h
      cases hn : jGetStr (jMember bone "node") with
      | none => rw [hn] at h; simp at h
      | some name =>
        rw [hn] at h
        dsimp only at h
        cases ht : jArr (jMember bone "transform") with
        | none => rw [ht] at h; simp at h
        | some tentries =>
          rw [ht] at h
          dsimp only at h
          cases hmf : matFromJson tentries with
          | none => rw [hmf] at h; simp at h
          | some inv =>
            rw [hmf] at h
            dsimp only at h
            have := bonesFoldJ_length rest (names ++ [name]) (mats ++ [inv]) ns ms h
            simp at this
            simp only [List.length_cons]
            omega
    · rw [if_pos (by simp [hh])] at h
      simp at h

/-- The parts fold produces the accumulated model list plus the new parts, and
its skin flag records whether any new part carries bones. -/
theorem partsFold_skin :
    ∀ (parts : List JVal) (acc : List ModelData) (b : Bool) (mnds : List ModelData) (s : Bool),
      Bundle3D.partsFold parts acc b = some (mnds, s) →
      ∃ tail, mnds = acc ++ tail ∧ s = (b || tail.any (fun m => !m.bones.isEmpty))
  | [], acc, b => by
    intro mnds s h
    unfold Bundle3D.partsFold at h
    cases h
    exact ⟨[], by simp⟩
  | part :: rest, acc, b => by
    intro mnds s h
    unfold Bundle3D.partsFold at h
    cases hm1 : jGetStr (jMember part "meshpartid") with
    | none => rw [hm1] at h; simp at h
    | some subMeshId =>
      rw [hm1] at h
      cases hm2 : jGetStr (jMember part "materialid") with
      | none => rw [hm2] at h; dsimp only at h; simp at h
      | some materialId =>
        rw [hm2] at h
        dsimp only at h
        by_cases he : (subMeshId = "" ∨ materialId = "")
        · rw [if_pos he] at h; simp at h
        · rw [if_neg he] at h
          by_cases hb : jHas part "bones"
          · rw [if_pos hb] at h
            cases ha : jArr (jMember part "bones") with
            | none => rw [ha] at h; simp at h
            | some bonesArr =>
              rw [ha] at h
              dsimp only at h
              cases hbf : Bundle3D.bonesFoldJ bonesArr [] [] with
              | none => rw [hbf] at h; simp at h
              | some pnm =>
                rw [hbf] at h
                rcases pnm with ⟨names, mats⟩
                dsimp only at h
                obtain ⟨tail, htail, hs⟩ := partsFold_skin rest _ _ mnds s h
                refine ⟨{ subMeshId := subMeshId, materialId := materialId,
                          bones := names, invBindPose := mats } :: tail, ?_, ?_⟩
                · rw [htail]; simp
                · rw [hs]
                  have hlen := bonesFoldJ_length bonesArr [] [] names mats hbf
                  simp at hlen
                  have hne : names.isEmpty = bonesArr.isEmpty := by
                    cases names with
                    | nil =>
                      cases bonesArr with
                      | nil => rfl
                      | cons x xs => simp at hlen
                    | cons y ys =>
                      cases bonesArr with
                      | nil => simp at hlen
                      | cons x xs => simp
                  simp only [List.any_cons]
                  rw [show (!List.isEmpty names) = (!List.isEmpty bonesArr) from by rw [hne]]
                  cases b <;> cases bonesArr.isEmpty <;> cases tail.any (fun m => !m.bones.isEmpty) <;> simp
          · rw [if_neg hb] at h
            obtain ⟨tail, htail, hs⟩ := partsFold_skin rest _ _ mnds s h
            refine ⟨{ subMeshId := subMeshId, materialId := materialId } :: tail, ?_, ?_⟩
            · rw [htail]; simp
            · rw [hs]
              simp [List.any_cons, ModelData.bones]

/-- The transform rule of the JSON node parser, split out as a helper. -/
theorem parseNodesJson_transform (version : String) (jvalue : JVal) (single : Bool) (nd : NodeData)
    (tentries : List JVal) (m : List Rat)
    (h : Bundle3D.parseNodesRecursivelyJson version jvalue single = some nd)
    (hT : jMember jvalue "transform" = some (.jarr tentries))
    (hM : matFromJson tentries = some m) :
    (Bundle3D.isLegacyNodeVersion version = true →
      (nodeIsSkinned nd || single) = true → nd.transform = mat4Identity) ∧
    (Bundle3D.isLegacyNodeVersion version = false → nd.transform = m) := by
  unfold Bundle3D.parseNodesRecursivelyJson at h
  cases hw : jWeight jvalue with
  | zero => have := jWeight_pos jvalue; omega
  | succ w =>
    rw [hw] at h
    unfold Bundle3D.parseNodesJsonF at h
    cases hid : jGetStr (jMember jvalue "id") with
    | none => rw [hid] at h; simp at h
    | some id =>
      rw [hid] at h
      dsimp only at h
      rw [hT] at h
      rw [show jArr (some (JVal.jarr tentries)) = some tentries from rfl] at h
      dsimp only at h
      rw [hM] at h
      dsimp only at h
      cases hp : (if jHas jvalue "parts" then
          match jArr (jMember jvalue "parts") with
          | none => none
          | some parts => Bundle3D.partsFold parts [] false
        else some ([], false)) with
      | none => rw [hp] at h; simp at h
      | some pms =>
        rw [hp] at h
        rcases pms with ⟨mnds, isSkin⟩
        dsimp only at h
        have hnd : nd.modelNodeDatas = mnds ∧ nd.transform =
            (if Bundle3D.isLegacyNodeVersion version then
              (if isSkin || single then mat4Identity else m) else m) := by
          by_cases hc : jHas jvalue "children"
          · rw [if_pos hc] at h
            cases hca : jArr (jMember jvalue "children") with
            | none => rw [hca] at h; simp at h
            | some cs =>
              rw [hca] at h
              dsimp only at h
              cases h
              exact ⟨rfl, rfl⟩
          · rw [if_neg hc] at h
            cases h
            exact ⟨rfl, rfl⟩
        have hskin : nodeIsSkinned nd = isSkin := by
          by_cases hpp : jHas jvalue "parts"
          · rw [if_pos hpp] at hp
            cases hpa : jArr (jMember jvalue "parts") with
            | none => rw [hpa] at hp; simp at hp
            | some parts =>
              rw [hpa] at hp
              obtain ⟨tail, htail, hs⟩ := partsFold_skin parts [] false mnds isSkin hp
              unfold nodeIsSkinned
              rw [hnd.1, htail, hs]
              simp
          · rw [if_neg hpp] at hp
            cases hp
            unfold nodeIsSkinned
            rw [hnd.1]
            simp
        constructor
        · intro hleg hsk
          rw [hnd.2, if_pos hleg, if_pos (by rw [← hskin]; exact hsk)]
        · intro hleg
          rw [hnd.2, hleg]
          simp

/-- The transform rule of the binary node parser, split out as a helper. -/
theorem parseNodesBinary_transform (version : String) (r : BundleReader) (skeleton single : Bool)
    (id : String) (r1 : BundleReader) (sb : Nat) (r2 : BundleReader)
    (mw : List Nat) (r3 : BundleReader) (ps : Nat) (r4 : BundleReader)
    (mnds : List ModelData) (isSkin : Bool) (r5 : BundleReader)
    (cs : Nat) (r6 : BundleReader)
    (h1 : readString r = (id, r1)) (h2 : read1 r1 = some (sb, r2))
    (h3 : readMatrix r2 = some (mw, r3)) (h4 : read4 r3 = some (ps, r4))
    (h5 : Bundle3D.partsLoopB ps r4 [] false = (some (mnds, isSkin), r5))
    (h6 : read4 r5 = some (cs, r6)) :
    ((Bundle3D.parseNodesRecursivelyBinary version r skeleton single).1.map NodeData.transform) =
      some (if Bundle3D.isLegacyNodeVersion version then
              (if isSkin || single then mat4Identity else wordsToMat mw)
            else wordsToMat mw) := by
  unfold Bundle3D.parseNodesRecursivelyBinary
  unfold Bundle3D.parseNodesBinaryF
  rw [h1]
  dsimp only
  rw [h2]
  dsimp only
  rw [h3]
  dsimp only
  rw [h4]
  dsimp only
  rw [h5]
  dsimp only
  rw [h6]
  dsimp only
  rfl

/-- C8: in both node parsers, for bundle versions "0.1" through "0.6" a node
that is skinned or parsed with the single-sprite flag has its transform forced
to the identity matrix; for every other version the stored transform read from
the file is honored. -/
theorem node_transform_version_rule :
    (∀ (version : String) (jvalue : JVal) (single : Bool) (nd : NodeData)
       (tentries : List JVal) (m : List Rat),
      Bundle3D.parseNodesRecursivelyJson version jvalue single = some nd →
      jMember jvalue "transform" = some (.jarr tentries) →
      matFromJson tentries = some m →
      ((Bundle3D.isLegacyNodeVersion version = true →
        (nodeIsSkinned nd || single) = true → nd.transform = mat4Identity) ∧
       (Bundle3D.isLegacyNodeVersion version = false → nd.transform = m))) ∧
    (∀ (version : String) (r : BundleReader) (skeleton single : Bool)
       (id : String) (r1 : BundleReader) (sb : Nat) (r2 : BundleReader)
       (mw : List Nat) (r3 : BundleReader) (ps : Nat) (r4 : BundleReader)
       (mnds : List ModelData) (isSkin : Bool) (r5 : BundleReader)
       (cs : Nat) (r6 : BundleReader),
      readString r = (id, r1) → read1 r1 = some (sb, r2) →
      readMatrix r2 = some (mw, r3) → read4 r3 = some (ps, r4) →
      Bundle3D.partsLoopB ps r4 [] false = (some (mnds, isSkin), r5) →
      read4 r5 = some (cs, r6) →
      ((Bundle3D.parseNodesRecursivelyBinary version r skeleton single).1.map NodeData.transform) =
        some (if Bundle3D.isLegacyNodeVersion version then
                (if isSkin || single then mat4Identity else wordsToMat mw)
              else wordsToMat mw)) :=
  ⟨fun version jvalue single nd tentries m h hT hM =>
    parseNodesJson_transform version jvalue single nd tentries m h hT hM,
   fun version r skeleton single id r1 sb r2 mw r3 ps r4 mnds isSkin r5 cs r6
       h1 h2 h3 h4 h5 h6 =>
    parseNodesBinary_transform version r skeleton single id r1 sb r2 mw r3 ps r4
      mnds isSkin r5 cs r6 h1 h2 h3 h4 h5 h6⟩

/-- A skinned JSON node entry with a non-identity stored transform. -/
def jNodeC8 : JVal :=
  .jobj [("id", .jstr "N"), ("transform", .jarr [.jnum 5]),
         ("parts", .jarr [.jobj [("meshpartid", .jstr "p"), ("materialid", .jstr "m"),
                                 ("bones", .jarr [.jobj [("node", .jstr "b1"),
                                                         ("transform", .jarr [])]])]])]

/-- The node `jNodeC8` parses to under a legacy version. -/
def ndC8 : NodeData :=
  .mk "N" mat4Identity
    [{ subMeshId := "p", materialId := "m", bones := ["b1"], invBindPose := [mat4Identity] }] []

/-- A plain binary node record: id "n", not a skeleton, zero matrix, no
parts, no children. -/
def nodePayloadC8 : List Nat :=
  [1, 0, 0, 0, 110] ++ [0] ++ List.replicate 64 0 ++ [0, 0, 0, 0] ++ [0, 0, 0, 0]

/-- C8 witness: the legacy JSON skinned node gets the identity transform, and
a non-legacy binary node keeps the transform read from the file. -/
theorem node_transform_version_rule_witness :
    ndC8.transform = mat4Identity ∧
    ((Bundle3D.parseNodesRecursivelyBinary "2.0" ⟨nodePayloadC8, 0⟩ false false).1.map
        NodeData.transform) =
      some (if Bundle3D.isLegacyNodeVersion "2.0" then
              (if false || false then mat4Identity else wordsToMat (List.replicate 16 0))
            else wordsToMat (List.replicate 16 0)) :=
  ⟨(node_transform_version_rule.1 "0.3" jNodeC8 false ndC8 [.jnum 5]
      ((5 : Rat) :: mat4Identity.drop 1) (by rfl) (by rfl) (by rfl)).1 (by rfl) (by rfl),
   node_transform_version_rule.2 "2.0" ⟨nodePayloadC8, 0⟩ false false
     "n" ⟨nodePayloadC8, 5⟩ 0 ⟨nodePayloadC8, 6⟩ (List.replicate 16 0) ⟨nodePayloadC8, 70⟩
     0 ⟨nodePayloadC8, 74⟩ [] false ⟨nodePayloadC8, 74⟩ 0 ⟨nodePayloadC8, 78⟩
     (by decide) (by decide) (by decide) (by decide) (by decide) (by decide)⟩

/-- A field value found in an object weighs no more than the field list. -/
theorem lookupField_weight :
    ∀ (fields : List (String × JVal)) (k : String) (w : JVal),
      lookupField fields k = some w → jWeight w ≤ jWeightFields fields
  | [], k, w => by intro h; simp [lookupField] at h
  | (k0, v) :: rest, k, w => by
    intro h
    unfold lookupField at h
    by_cases hk : k0 = k
    · rw [if_pos hk] at h
      cases h
      simp [jWeightFields]
      omega
    · rw [if_neg hk] at h
      have := lookupField_weight rest k w h
      simp [jWeightFields]
      omega

/-- A member of an object is structurally lighter than the object. -/
theorem jMember_weight (v : JVal) (k : String) (w : JVal)
    (h : jMember v k = some w) : jWeight w < jWeight v := by
  cases v <;> simp [jMember] at h
  case jobj fields =>
    have := lookupField_weight fields k w h
    simp [jWeight]
    omega

/-- An element of an array value is structurally lighter than the array. -/
theorem mem_arr_weight (c : JVal) (xs : List JVal) (h : c ∈ xs) :
    jWeight c < jWeight (JVal.jarr xs) := by
  have hle : ∀ (l : List JVal), c ∈ l → jWeight c ≤ jWeightList l := by
    intro l
    induction l with
    | nil => intro hc; cases hc
    | cons x rest ih =>
      intro hc
      rcases List.mem_cons.mp hc with rfl | hc
      · simp [jWeightList]; omega
      · have := ih hc
        simp [jWeightList]
        omega
  have := hle xs h
  simp [jWeight]
  omega

/-- The fuel of the JSON node parser is irrelevant once sufficient. -/
theorem parseNodesJsonF_fuel (version : String) (single : Bool) :
    ∀ (f1 : Nat) (v : JVal) (f2 : Nat), jWeight v ≤ f1 → jWeight v ≤ f2 →
      Bundle3D.parseNodesJsonF version f1 v single = Bundle3D.parseNodesJsonF version f2 v single
  | 0, v, f2 => by
    intro h1 _
    have := jWeight_pos v
    omega
  | a + 1, v, 0 => by
    intro _ h2
    have := jWeight_pos v
    omega
  | a + 1, v, b + 1 => by
    intro h1 h2
    unfold Bundle3D.parseNodesJsonF
    cases hid : jGetStr (jMember v "id") with
    | none => rfl
    | some id =>
      dsimp only
      cases ht : jArr (jMember v "transform") with
      | none => rfl
      | some tentries =>
        dsimp only
        cases hm : matFromJson tentries with
        | none => rfl
        | some m =>
          dsimp only
          cases hp : (if jHas v "parts" then
              match jArr (jMember v "parts") with
              | none => none
              | some parts => Bundle3D.partsFold parts [] false
            else some ([], false)) with
          | none => rfl
          | some pms =>
            rcases pms with ⟨mnds, isSkin⟩
            dsimp only
            by_cases hc : jHas v "children"
            · rw [if_pos hc, if_pos hc]
              cases hca : jMember v "children" with
              | none => simp [jHas, hca] at hc
              | some cv =>
                cases cv with
                | jarr cs =>
                  rw [show jArr (some (JVal.jarr cs)) = some cs from rfl]
                  dsimp only
                  have hcw : ∀ c ∈ cs, jWeight c ≤ a ∧ jWeight c ≤ b := by
                    intro c hcm
                    have h1' : jWeight c < jWeight (JVal.jarr cs) := mem_arr_weight c cs hcm
                    have h2' : jWeight (JVal.jarr cs) < jWeight v := jMember_weight v "children" _ hca
                    omega
                  congr 1
                  congr 1
                  apply List.map_congr_left
                  intro c hcm
                  exact parseNodesJsonF_fuel version single a c b (hcw c hcm).1 (hcw c hcm).2
                | jstr s => rw [show jArr (some (JVal.jstr s)) = none from rfl]
                | jnum q => rw [show jArr (some (JVal.jnum q)) = none from rfl]
                | jbool bb => rw [show jArr (some (JVal.jbool bb)) = none from rfl]
                | jnull => rw [show jArr (some JVal.jnull) = none from rfl]
                | jobj fs => rw [show jArr (some (JVal.jobj fs)) = none from rfl]
            · rw [if_neg hc, if_neg hc]

/-- A part whose mesh-part id or material id is the empty string. -/
def badPart (part : JVal) : Prop :=
  jGetStr (jMember part "meshpartid") = some "" ∨ jGetStr (jMember part "materialid") = some ""

/-- The parts fold fails whenever some part has an empty required id. -/
theorem partsFold_bad :
    ∀ (parts : List JVal) (acc : List ModelData) (b : Bool),
      (∃ part ∈ parts, badPart part) → Bundle3D.partsFold parts acc b = none
  | [], acc, b => by
    intro h
    rcases h with ⟨part, hm, _⟩
    cases hm
  | part :: rest, acc, b => by
    intro h
    unfold Bundle3D.partsFold
    rcases h with ⟨bad, hm, hbad⟩
    rcases List.mem_cons.mp hm with rfl | hmr
    · rcases hbad with hb1 | hb2
      · rw [hb1]
        cases hm2 : jGetStr (jMember bad "materialid") with
        | none => rfl
        | some materialId =>
          dsimp only
          rw [if_pos (Or.inl rfl)]
      · cases hm1 : jGetStr (jMember bad "meshpartid") with
        | none => rfl
        | some subMeshId =>
          rw [hb2]
          dsimp only
          rw [if_pos (Or.inr rfl)]
    · cases hm1 : jGetStr (jMember part "meshpartid") with
      | none => rfl
      | some subMeshId =>
        cases hm2 : jGetStr (jMember part "materialid") with
        | none => rfl
        | some materialId =>
          dsimp only
          by_cases he : (subMeshId = "" ∨ materialId = "")
          · rw [if_pos he]
          · rw [if_neg he]
            by_cases hb : jHas part "bones"
            · rw [if_pos hb]
              cases ha : jArr (jMember part "bones") with
              | none => rfl
              | some bonesArr =>
                dsimp only
                cases hbf : Bundle3D.bonesFoldJ bonesArr [] [] with
                | none => rfl
                | some pnm =>
                  rcases pnm with ⟨names, mats⟩
                  dsimp only
                  exact partsFold_bad rest _ _ ⟨bad, hmr, hbad⟩
            · rw [if_neg hb]
              exact partsFold_bad rest _ _ ⟨bad, hmr, hbad⟩

/-- C5 (amended), part b helper: the parent's child collection stores the raw
recursive parse results, one entry per child, null entries included. -/
theorem parseNodesJson_children (version : String) (jvalue : JVal) (single : Bool)
    (cs : List JVal) (nd : NodeData)
    (hC : jMember jvalue "children" = some (.jarr cs))
    (h : Bundle3D.parseNodesRecursivelyJson version jvalue single = some nd) :
    nd.children = cs.map (fun c => Bundle3D.parseNodesRecursivelyJson version c single) := by
  unfold Bundle3D.parseNodesRecursivelyJson at h
  cases hw : jWeight jvalue with
  | zero => have := jWeight_pos jvalue; omega
  | succ w =>
    rw [hw] at h
    unfold Bundle3D.parseNodesJsonF at h
    cases hid : jGetStr (jMember jvalue "id") with
    | none => rw [hid] at h; simp at h
    | some id =>
      rw [hid] at h
      dsimp only at h
      cases ht : jArr (jMember jvalue "transform") with
      | none => rw [ht] at h; simp at h
      | some tentries =>
        rw [ht] at h
        dsimp only at h
        cases hm : matFromJson tentries with
        | none => rw [hm] at h; simp at h
        | some m =>
          rw [hm] at h
          dsimp only at h
          cases hp : (if jHas jvalue "parts" then
              match jArr (jMember jvalue "parts") with
              | none => none
              | some parts => Bundle3D.partsFold parts [] false
            else some ([], false)) with
          | none => rw [hp] at h; simp at h
          | some pms =>
            rw [hp] at h
            rcases pms with ⟨mnds, isSkin⟩
            dsimp only at h
            rw [if_pos (by simp [jHas, hC])] at h
            rw [hC] at h
            rw [show jArr (some (JVal.jarr cs)) = some cs from rfl] at h
            dsimp only at h
            cases h
            show List.map _ cs = _
            apply List.map_congr_left
            intro c hcm
            have h1' : jWeight c < jWeight (JVal.jarr cs) := mem_arr_weight c cs hcm
            have h2' : jWeight (JVal.jarr cs) < jWeight jvalue :=
              jMember_weight jvalue "children" _ hC
            exact parseNodesJsonF_fuel version single w c (jWeight c) (by omega) (by omega)

/-- C5 (amended): a part with an empty mesh-part id or material id discards
exactly the node owning it — the recursive parse of that node returns null —
while an ancestor keeps a null entry in its child collection (one entry per
child, the raw recursive result), rather than discarding the whole branch. -/
theorem parseNodesJson_failure_propagation :
    (∀ (version : String) (jvalue : JVal) (single : Bool) (partsArr : List JVal),
      jMember jvalue "parts" = some (.jarr partsArr) →
      (∃ part ∈ partsArr, badPart part) →
      Bundle3D.parseNodesRecursivelyJson version jvalue single = none) ∧
    (∀ (version : String) (jvalue : JVal) (single : Bool) (cs : List JVal) (nd : NodeData),
      jMember jvalue "children" = some (.jarr cs) →
      Bundle3D.parseNodesRecursivelyJson version jvalue single = some nd →
      nd.children = cs.map (fun c => Bundle3D.parseNodesRecursivelyJson version c single)) := by
  constructor
  · intro version jvalue single partsArr hP hbad
    unfold Bundle3D.parseNodesRecursivelyJson
    cases hw : jWeight jvalue with
    | zero => rfl
    | succ w =>
      unfold Bundle3D.parseNodesJsonF
      cases hid : jGetStr (jMember jvalue "id") with
      | none => rfl
      | some id =>
        dsimp only
        cases ht : jArr (jMember jvalue "transform") with
        | none => rfl
        | some tentries =>
          dsimp only
          cases hm : matFromJson tentries with
          | none => rfl
          | some m =>
            dsimp only
            rw [if_pos (by simp [jHas, hP])]
            rw [hP]
            rw [show jArr (some (JVal.jarr partsArr)) = some partsArr from rfl]
            dsimp only
            rw [partsFold_bad partsArr [] false hbad]
  · exact parseNodesJson_children

/-- A part entry with an empty mesh-part id. -/
def jC5part : JVal :=
  .jobj [("meshpartid", .jstr ""), ("materialid", .jstr "m")]

/-- A child node entry owning the bad part. -/
def jC5child : JVal :=
  .jobj [("id", .jstr "C"), ("transform", .jarr []), ("parts", .jarr [jC5part])]

/-- A parent node entry whose only child is `jC5child`. -/
def jC5parent : JVal :=
  .jobj [("id", .jstr "P"), ("transform", .jarr []), ("children", .jarr [jC5child])]

/-- C5 counterexample: the node owning the empty mesh-part id parses to null,
but the parent does not propagate the failure — it parses successfully and its
child collection holds a null entry for the failed branch, contradicting "the
parent's child collection does not contain an entry for that branch". -/
theorem parseNodesJson_null_child_counterex :
    Bundle3D.parseNodesRecursivelyJson "2.0" jC5child false = none ∧
    (Bundle3D.parseNodesRecursivelyJson "2.0" jC5parent false).map NodeData.children =
      some [none] :=
  ⟨rfl, rfl⟩

/-- C5 witness: the amended claim applied to the concrete parent/child pair. -/
theorem parseNodesJson_failure_propagation_witness :
    Bundle3D.parseNodesRecursivelyJson "2.0" jC5child false = none ∧
    (NodeData.mk "P" mat4Identity [] [none]).children =
      [jC5child].map (fun c => Bundle3D.parseNodesRecursivelyJson "2.0" c false) :=
  ⟨parseNodesJson_failure_propagation.1 "2.0" jC5child false [jC5part] rfl
     ⟨jC5part, List.Mem.head _, Or.inl rfl⟩,
   parseNodesJson_failure_propagation.2 "2.0" jC5parent false [jC5child]
     (NodeData.mk "P" mat4Identity [] [none]) rfl (by rfl)⟩

/-- The scan of `loadAnimationDataJson` leaves its accumulator untouched when
no entry of the list matches the filter. -/
theorem animScan_no_match (id : String) :
    ∀ (l : List JVal) (acc : Int) (i : Nat),
      (∀ e ∈ l, jGetStr (jMember e "id") ≠ some id) →
      Bundle3D.animScan id l acc i = acc
  | [], acc, i => fun _ => rfl
  | e :: rest, acc, i => by
    intro h
    unfold Bundle3D.animScan
    rw [if_neg (h e (List.Mem.head _))]
    exact animScan_no_match id rest acc (i + 1) (fun e' he' => h e' (List.Mem.tail _ he'))

/-- The scan of `loadAnimationDataJson` returns the position of the LAST
matching entry (every match overwrites the accumulator; the loop has no
early exit). -/
theorem animScan_last_match (id : String) :
    ∀ (l : List JVal) (j : Nat) (e : JVal) (acc : Int) (i : Nat),
      l.get? j = some e →
      jGetStr (jMember e "id") = some id →
      (∀ (k : Nat) (e' : JVal), j < k → l.get? k = some e' →
        jGetStr (jMember e' "id") ≠ some id) →
      Bundle3D.animScan id l acc i = ((i + j : Nat) : Int)
  | [], j, e, acc, i => by intro hj; simp at hj
  | e0 :: rest, j, e, acc, i => by
    intro hj hmatch hafter
    unfold Bundle3D.animScan
    cases j with
    | zero =>
      simp only [List.get?] at hj
      cases hj
      rw [if_pos hmatch]
      have hnone : ∀ e' ∈ rest, jGetStr (jMember e' "id") ≠ some id := by
        intro e' he'
        obtain ⟨n, hn⟩ := List.mem_iff_get?.mp he'
        exact hafter (n + 1) e' (by omega) hn
      rw [animScan_no_match id rest _ _ hnone]
      simp
    | succ j' =>
      have hrec := animScan_last_match id rest j' e
        (if jGetStr (jMember e0 "id") = some id then (i : Int) else acc) (i + 1)
        hj hmatch
        (fun k e' hk hke => hafter (k + 1) e' (by omega) hke)
      rw [hrec]
      congr 1
      omega

/-- C4 (amended): `loadAnimationDataJson` selects the clip by a linear scan of
the version-keyed top-level animation array in which every matching entry
overwrites the selection, so with a non-empty id filter the LAST entry whose
"id" equals the filter wins (not the first); if no entry matches, the call is
a hard failure leaving the output untouched; if the id filter is empty, the
first entry of the array is used. -/
theorem loadAnimationDataJson_selection (st : Bundle3D) (id : String)
    (ad0 : Animation3DData) (doc : JVal) (arr : List JVal)
    (hdoc : st.jsonDoc = some doc)
    (harr : jMember doc (if st.version = "1.2" ∨ st.version = "0.2" then "animation" else "animations") = some (.jarr arr)) :
    (∀ (j : Nat) (e : JVal), id ≠ "" → arr.get? j = some e →
      jGetStr (jMember e "id") = some id →
      (∀ (k : Nat) (e' : JVal), j < k → arr.get? k = some e' →
        jGetStr (jMember e' "id") ≠ some id) →
      Bundle3D.loadAnimationDataJson st id ad0 = animExtract e ad0)
    ∧ (id ≠ "" → (∀ e ∈ arr, jGetStr (jMember e "id") ≠ some id) →
        Bundle3D.loadAnimationDataJson st id ad0 = (false, ad0))
    ∧ (∀ e0, arr.get? 0 = some e0 →
        Bundle3D.loadAnimationDataJson st "" ad0 = animExtract e0 ad0) := by
  have hbody : ∀ i : String, Bundle3D.loadAnimationDataJson st i ad0 =
      (if arr.length = 0 then (false, ad0)
       else
         let theIndex : Int := if i ≠ "" then animScan i arr (-1) 0 else 0
         if theIndex < 0 then (false, ad0)
         else match arr.get? theIndex.toNat with
           | none => (false, ad0)
           | some entry => animExtract entry ad0) := by
    intro i
    unfold Bundle3D.loadAnimationDataJson
    rw [hdoc]
    dsimp only
    simp only [jHas, harr, Option.isSome_some, not_true, if_false]
    rw [show jArr (some (JVal.jarr arr)) = some arr from rfl]
  refine ⟨?_, ?_, ?_⟩
  · intro j e hid hj hmatch hafter
    rw [hbody id]
    obtain ⟨hlt, _⟩ := List.get?_eq_some.mp hj
    rw [if_neg (by omega : ¬ arr.length = 0)]
    dsimp only
    rw [if_pos hid, animScan_last_match id arr j e (-1) 0 hj hmatch hafter,
      Nat.zero_add]
    rw [if_neg (by omega : ¬ ((j : Nat) : Int) < 0)]
    rw [Int.toNat_natCast, hj]
  · intro hid hnone
    rw [hbody id]
    by_cases hlen : arr.length = 0
    · rw [if_pos hlen]
    · rw [if_neg hlen]
      dsimp only
      rw [if_pos hid, animScan_no_match id arr (-1) 0 hnone]
      rw [if_pos (by decide : (-1 : Int) < 0)]
  · intro e0 h0
    rw [hbody ""]
    have hlen : arr.length ≠ 0 := by
      intro hl
      rw [List.length_eq_zero.mp hl] at h0
      simp at h0
    rw [if_neg hlen]
    dsimp only
    rw [if_neg (by decide : ¬ ("" : String) ≠ "")]
    rw [if_neg (by decide : ¬ (0 : Int) < 0)]
    rw [show ((0 : Int)).toNat = 0 from rfl, h0]

/-- A clip entry named "walk" with length 1 and no bones. -/
def animE1 : JVal :=
  .jobj [("id", .jstr "walk"), ("length", .jnum 1), ("bones", .jarr [])]

/-- A second clip entry also named "walk", with length 2. -/
def animE2 : JVal :=
  .jobj [("id", .jstr "walk"), ("length", .jnum 2), ("bones", .jarr [])]

/-- A JSON document whose "animations" array holds the two "walk" clips. -/
def animDoc : JVal :=
  .jobj [("version", .jstr "2.0"), ("animations", .jarr [animE1, animE2])]

/-- A bundle state holding `animDoc` as its parsed document. -/
def stC4 : Bundle3D :=
  { version := "2.0", jsonDoc := some animDoc }

/-- C4 counterexample: with two entries both named "walk" (lengths 1 and 2)
the loader returns the clip of the SECOND entry (total time 2); under the
claimed first-match rule the first entry would have been extracted, giving
total time 1. -/
theorem loadAnimationDataJson_last_match_counterex :
    Bundle3D.loadAnimationDataJson stC4 "walk" {} = (true, { totalTime := 2 }) ∧
    animExtract animE1 {} = (true, { totalTime := 1 }) := ⟨rfl, rfl⟩

/-- C4 witness: the amended selection rule applied to the concrete two-entry
document, picking the last "walk" entry. -/
theorem loadAnimationDataJson_selection_witness :
    Bundle3D.loadAnimationDataJson stC4 "walk" {} = animExtract animE2 {} :=
  (loadAnimationDataJson_selection stC4 "walk" {} animDoc [animE1, animE2]
    rfl rfl).1 1 animE2 (by decide) rfl rfl
    (fun k e' hk hke => by
      rw [List.get?_eq_none.mpr
        (by simp only [List.length_cons, List.length_nil]; omega)] at hke
      exact Option.noConfusion hke)
